import Mathlib

/-!
Verification of the zingolib wallet accounting and note-selection engine.

This file shallowly embeds the Rust sources into Lean:

* src/zingolib/src/wallet/transaction_record.rs
  (TransactionRecord with its query and fee functions), and
* src/lib/src/wallet.rs
  (LightWallet: balances, anchor computation, note selection,
  serialization skeleton, key import, and the send orchestration).

Machine integers in the source are u64/u32; arithmetic on them either
returns checked options (Amount) or panics on overflow rather than
silently wrapping, except for a small number of explicit casts which are
modelled with an explicit modulus.  Values are therefore modelled as Nat.
-/

/-! ## Part 1: the zingolib TransactionRecord
    (src/zingolib/src/wallet/transaction_record.rs) -/

/-- Pool type tag, from zcash_client_backend PoolType: a transparent
output or one of the two shielded protocols. -/
inductive PoolTypeM where
  | transparentPool
  | saplingPool
  | orchardPool
  deriving DecidableEq, Repr

/-- A transparent output owned by the wallet, as stored in a
TransactionRecord (TransparentOutput).  The output index is a plain u64
in the source (never optional). -/
structure OutputTR where
  value : Nat
  outputIndex : Nat
  spent : Option (Nat × Nat)
  unconfirmedSpent : Option (Nat × Nat)
  deriving DecidableEq, Repr

/-- A shielded (sapling or orchard) note owned by the wallet, as stored
in a TransactionRecord.  The output index is Option of u32 in the
source.  The is_change flag backs sum_pool_change. -/
structure ShNoteTR where
  value : Nat
  outputIndex : Option Nat
  spent : Option (Nat × Nat)
  unconfirmedSpent : Option (Nat × Nat)
  isChange : Bool
  deriving DecidableEq, Repr

/-- TransactionRecord: everything the wallet knows about one
transaction (fields used by the claims; outgoing_tx_data keeps only the
value of each outgoing send). -/
structure TransactionRecordM where
  txid : Nat
  saplingNotes : List ShNoteTR
  orchardNotes : List ShNoteTR
  transparentOutputs : List OutputTR
  totalSaplingValueSpent : Nat
  totalOrchardValueSpent : Nat
  totalTransparentValueSpent : Nat
  outgoingTxData : List Nat
  deriving DecidableEq, Repr

/-- OutputQuery::stipulations(unspent, pending_spent, spent,
transparent, sapling, orchard): a spend-status subset crossed with a
pool subset. -/
structure OutputQueryM where
  unspent : Bool
  pendingSpent : Bool
  spent : Bool
  transparent : Bool
  sapling : Bool
  orchard : Bool
  deriving DecidableEq, Repr

/-- Identifier of one output: OutputId::from_parts(txid, pool, index). -/
structure OutputIdM where
  txid : Nat
  pool : PoolTypeM
  index : Nat
  deriving DecidableEq, Repr

/-- Modelled from the spec: spend_status_query lives in the notes
module, which is not under src/.  Spec section 4.3 describes the query
primitive as a spend-status subset; an output is in exactly one of the
three states unspent / pending-spent / spent, determined by its spent
and unconfirmed_spent fields, and matches when the query includes that
state. -/
def OutputTR.spendStatusQuery (n : OutputTR) (q : OutputQueryM) : Bool :=
  if n.spent.isSome then q.spent
  else if n.unconfirmedSpent.isSome then q.pendingSpent
  else q.unspent

/-- Modelled from the spec: same as OutputTR.spendStatusQuery, for
shielded notes (the notes module is not under src/). -/
def ShNoteTR.spendStatusQuery (n : ShNoteTR) (q : OutputQueryM) : Bool :=
  if n.spent.isSome then q.spent
  else if n.unconfirmedSpent.isSome then q.pendingSpent
  else q.unspent

/-- u32 truncation of a Nat, for the explicit u64-to-u32 casts in the
source. -/
def u32cast (n : Nat) : Nat := n % 4294967296

/-- TransactionRecord::query_for_ids.  The source pushes, for every
matching transparent output, an id with PoolType::Transparent; for
every matching sapling or orchard note it pushes an id only when the
note has an output index, again tagged PoolType::Transparent. -/
def TransactionRecordM.queryForIds (r : TransactionRecordM) (q : OutputQueryM) :
    List OutputIdM :=
  (if q.transparent then
    r.transparentOutputs.filterMap (fun n =>
      if n.spendStatusQuery q then
        some ⟨r.txid, PoolTypeM.transparentPool, u32cast n.outputIndex⟩
      else none)
  else []) ++
  (if q.sapling then
    r.saplingNotes.filterMap (fun n =>
      if n.spendStatusQuery q then
        n.outputIndex.map (fun i => ⟨r.txid, PoolTypeM.transparentPool, i⟩)
      else none)
  else []) ++
  (if q.orchard then
    r.orchardNotes.filterMap (fun n =>
      if n.spendStatusQuery q then
        n.outputIndex.map (fun i => ⟨r.txid, PoolTypeM.transparentPool, i⟩)
      else none)
  else [])

/-- TransactionRecord::query_sum_value: sums the values of all
matching outputs of the included pools (no output-index condition). -/
def TransactionRecordM.querySumValue (r : TransactionRecordM) (q : OutputQueryM) :
    Nat :=
  (if q.transparent then
    ((r.transparentOutputs.filter (fun n => n.spendStatusQuery q)).map
      (fun n => n.value)).sum
  else 0) +
  (if q.sapling then
    ((r.saplingNotes.filter (fun n => n.spendStatusQuery q)).map
      (fun n => n.value)).sum
  else 0) +
  (if q.orchard then
    ((r.orchardNotes.filter (fun n => n.spendStatusQuery q)).map
      (fun n => n.value)).sum
  else 0)

/-- TransactionRecord::value_outgoing: fold of the outgoing-send
values. -/
def TransactionRecordM.valueOutgoing (r : TransactionRecordM) : Nat :=
  r.outgoingTxData.foldl (fun runningTotal v => v + runningTotal) 0

/-- TransactionRecord::value_spent_by_pool: the three per-pool spent
totals in source order [transparent, sapling, orchard]. -/
def TransactionRecordM.valueSpentByPool (r : TransactionRecordM) : List Nat :=
  [r.totalTransparentValueSpent, r.totalSaplingValueSpent, r.totalOrchardValueSpent]

/-- TransactionRecord::total_value_spent: sum of value_spent_by_pool. -/
def TransactionRecordM.totalValueSpent (r : TransactionRecordM) : Nat :=
  r.valueSpentByPool.sum

/-- Modelled from the spec: D::sum_pool_change (traits module, not
under src/) sums the values of the pool notes flagged as change. -/
def poolChangeReturned (notes : List ShNoteTR) : Nat :=
  ((notes.filter (fun n => n.isChange)).map (fun n => n.value)).sum

/-- TransactionRecord::total_change_returned: sapling change plus
orchard change. -/
def TransactionRecordM.totalChangeReturned (r : TransactionRecordM) : Nat :=
  poolChangeReturned r.saplingNotes + poolChangeReturned r.orchardNotes

/-- ZingoLibError variants relevant here. -/
inductive ZingoLibErrorM where
  | metadataUnderflow
  deriving DecidableEq, Repr

/-- TransactionRecord::get_transaction_fee: Ok(total spent minus
(outgoing plus change)) when total spent covers it, otherwise a
MetadataUnderflow error. -/
def TransactionRecordM.getTransactionFee (r : TransactionRecordM) :
    Except ZingoLibErrorM Nat :=
  let outputted := r.valueOutgoing + r.totalChangeReturned
  if r.totalValueSpent ≥ outputted then
    Except.ok (r.totalValueSpent - outputted)
  else
    Except.error ZingoLibErrorM.metadataUnderflow

/-! ## Part 2: the LightWallet data model (src/lib/src/wallet.rs) -/

/-- A shielded note with metadata as the older LightWallet stores it
(SaplingNoteAndMetadata / OrchardNoteAndMetadata in the data module):
value, nullifier, the two spend markers, and the facts the balance and
selection filters consult — whether the key store holds the spending
key for the note's fvk, how many witnesses are retained, and the
note's diversified receiving address (an opaque encoded token). -/
structure NoteM where
  value : Nat
  nullifier : Nat
  spent : Option (Nat × Nat)
  unconfirmedSpent : Option (Nat × Nat)
  hasSpendingKey : Bool
  witnessesLen : Nat
  address : Nat
  deriving DecidableEq, Repr

/-- A transparent utxo (Utxo in the data module): its funding txid and
output index, value, address, and spend markers (spent is the spending
txid; unconfirmed_spent carries txid and height). -/
structure UtxoM where
  txid : Nat
  outputIndex : Nat
  value : Nat
  address : Nat
  spent : Option Nat
  unconfirmedSpent : Option (Nat × Nat)
  deriving DecidableEq, Repr

/-- TransactionMetadata: one entry of TransactionMetadataSet.current,
keyed by txid, holding the mined height and the per-pool received
notes and utxos. -/
structure TxM where
  txid : Nat
  block : Nat
  saplingNotes : List NoteM
  orchardNotes : List NoteM
  utxos : List UtxoM
  deriving DecidableEq, Repr

/-- The key store (Keys, module not under src/; fields as used from
wallet.rs): the encryption/lock flags and the three per-pool key
vectors.  Keys are opaque tokens; for transparent keys the token is
the key's address, for sapling keys it also serves as the default
zaddress. -/
structure KeysM where
  encrypted : Bool
  unlocked : Bool
  tkeys : List Nat
  zkeys : List Nat
  okeys : List Nat
  deriving DecidableEq, Repr

/-- BlockData: a retained block header (height plus opaque hash). -/
structure BlockM where
  height : Nat
  hash : Nat
  deriving DecidableEq, Repr

/-- WalletOptions.download_memos. -/
inductive MemoDownloadOptionM where
  | noMemos
  | walletMemos
  | allMemos
  deriving DecidableEq, Repr

/-- The numeric tag each MemoDownloadOption serializes to. -/
def MemoDownloadOptionM.toNat : MemoDownloadOptionM → Nat
  | .noMemos => 0
  | .walletMemos => 1
  | .allMemos => 2

/-- WalletOptions. -/
structure WalletOptionsM where
  downloadMemos : MemoDownloadOptionM
  deriving DecidableEq, Repr

/-- ZingoConfig, as consulted from wallet.rs: the chain tag (opaque
token), the sapling activation height, and the ordered anchor-offset
tiers.  In the source anchor_offset is a fixed-size non-empty array,
so its .last().unwrap() never panics; theorems that depend on it carry
an explicit non-emptiness hypothesis. -/
structure ConfigM where
  chain : Nat
  saplingActivationHeight : Nat
  anchorOffset : List Nat
  deriving DecidableEq, Repr

/-- LightWallet: the aggregate wallet state (the lock-wrapped fields,
with TransactionMetadataSet.current as an association list keyed by
TxM.txid and the block window highest-first). -/
structure WalletM where
  birthday : Nat
  blocks : List BlockM
  walletOptions : WalletOptionsM
  verifiedTree : Option Nat
  price : Nat
  keys : KeysM
  txns : List TxM
  deriving DecidableEq, Repr

/-- LightWallet::get_target_height: first retained block's height
(u32 cast) plus one. -/
def getTargetHeight (w : WalletM) : Option Nat :=
  w.blocks.head?.map (fun b => u32cast b.height + 1)

/-- LightWallet::get_target_height_and_anchor_offset: from the lowest
retained height (blocks.last) and the tip (blocks.first), the target
height is tip + 1 and the anchor is target minus the last configured
anchor offset (saturating), clamped up to the lowest retained height;
returns the target and the distance from target to anchor. -/
def getTargetHeightAndAnchorOffset (cfg : ConfigM) (w : WalletM) :
    Option (Nat × Nat) :=
  match w.blocks.getLast?.map (fun b => u32cast b.height),
      w.blocks.head?.map (fun b => u32cast b.height) with
  | some minHeight, some maxHeight =>
    let targetHeight := maxHeight + 1
    let anchorHeight :=
      max (targetHeight - (cfg.anchorOffset.getLast?.getD 0)) minHeight
    some (targetHeight, targetHeight - anchorHeight)
  | _, _ => none

/-- LightWallet::get_anchor_height: target height minus the returned
offset minus one (u32 arithmetic: the trailing minus one wraps, which
is modelled by the explicit modulus), or 0 with no blocks. -/
def getAnchorHeight (cfg : ConfigM) (w : WalletM) : Nat :=
  match getTargetHeightAndAnchorOffset cfg w with
  | some (height, anchorOffset) => (height - anchorOffset + 4294967295) % 4294967296
  | none => 0

/-- LightWallet::get_utxos: all utxos over all records whose spent
marker is empty (pending-spent ones included). -/
def getUtxos (w : WalletM) : List UtxoM :=
  w.txns.flatMap (fun tx => tx.utxos.filter (fun u => u.spent = none))

/-- LightWallet::tbalance: total value of get_utxos, optionally
restricted to one address. -/
def tbalance (w : WalletM) (addr : Option Nat) : Nat :=
  (((getUtxos w).filter (fun u =>
    match addr with
    | some a => u.address = a
    | none => true)).map (fun u => u.value)).sum

/-- The address filter shielded_balance applies first: keep the note
when no target address is given, else compare the note's diversified
address with the target. -/
def filterNotesByTargetAddr (targetAddr : Option Nat) (n : NoteM) : Bool :=
  match targetAddr with
  | some a => a = n.address
  | none => true

/-- The unspent-note contribution inside shielded_balance: the note's
value when both spend markers are empty, else 0. -/
def noteContribution (n : NoteM) : Nat :=
  if n.spent = none ∧ n.unconfirmedSpent = none then n.value else 0

/-- LightWallet::shielded_balance, generic over the pool projection
and over the runtime filter list (spec section 9 blesses replacing the
boxed closures by explicit predicates): per record, sum the
contributions of the pool's notes that pass the address filter and
every filter in the list. -/
def shieldedBalance (notesOf : TxM → List NoteM) (targetAddr : Option Nat)
    (filters : List (NoteM → TxM → Bool)) (txns : List TxM) : Nat :=
  (txns.map (fun tx =>
    ((((notesOf tx).filter (filterNotesByTargetAddr targetAddr)).filter
      (fun n => filters.all (fun f => f n tx))).map noteContribution).sum)).sum

/-- LightWallet::maybe_verified_sapling_balance: shielded_balance on
sapling notes with no extra filters. -/
def maybeVerifiedSaplingBalance (w : WalletM) (addr : Option Nat) : Nat :=
  shieldedBalance TxM.saplingNotes addr [] w.txns

/-- LightWallet::maybe_verified_orchard_balance. -/
def maybeVerifiedOrchardBalance (w : WalletM) (addr : Option Nat) : Nat :=
  shieldedBalance TxM.orchardNotes addr [] w.txns

/-- LightWallet::spendable_sapling_balance: the record must be at or
below the anchor height, and the wallet must hold the spending key and
at least one retained witness for the note. -/
def spendableSaplingBalance (cfg : ConfigM) (w : WalletM) (addr : Option Nat) :
    Nat :=
  let anchorHeight := getAnchorHeight cfg w
  shieldedBalance TxM.saplingNotes addr
    [fun _ tx => decide (tx.block ≤ anchorHeight),
     fun n _ => n.hasSpendingKey && decide (n.witnessesLen > 0)] w.txns

/-- LightWallet::spendable_orchard_balance. -/
def spendableOrchardBalance (cfg : ConfigM) (w : WalletM) (addr : Option Nat) :
    Nat :=
  let anchorHeight := getAnchorHeight cfg w
  shieldedBalance TxM.orchardNotes addr
    [fun _ tx => decide (tx.block ≤ anchorHeight),
     fun n _ => n.hasSpendingKey && decide (n.witnessesLen > 0)] w.txns

/-! ## Part 3: note selection (src/lib/src/wallet.rs,
    select_notes_and_utxos / add_notes_to_total /
    get_all_domain_specific_notes) -/

/-- A spendable note as selection returns it (SpendableSaplingNote /
SpendableOrchardNote): the funding record's txid, the note's nullifier
and value (the key, diversifier and witness they also carry play no
role in the selection arithmetic). -/
structure SpendableM where
  transactionId : Nat
  nullifier : Nat
  value : Nat
  deriving DecidableEq, Repr

/-- Total value of a list of spendable notes (the fold over Amount in
the source). -/
def spendableSum (ns : List SpendableM) : Nat := (ns.map (fun s => s.value)).sum

/-- Modelled from the spec: SpendableNote::from (data module, not
under src/) succeeds exactly when the spending key is held and a
witness is retained at the requested anchor-offset depth (witness
number anchor_offset from the end exists, i.e. more than anchor_offset
witnesses are retained). -/
def spendableNoteFrom (transactionId : Nat) (n : NoteM) (anchorOffset : Nat) :
    Option SpendableM :=
  if n.hasSpendingKey ∧ n.witnessesLen > anchorOffset then
    some ⟨transactionId, n.nullifier, n.value⟩
  else none

/-- LightWallet::get_all_domain_specific_notes, for one pool
projection: for each configured anchor-offset tier, the unspent,
non-pending, positive-value notes convertible to spendable notes at
that tier's depth, sorted ascending by value (the source sort is
stable; insertionSort on a total preorder is the same stable sort). -/
def getAllDomainSpecificNotes (notesOf : TxM → List NoteM) (cfg : ConfigM)
    (w : WalletM) : List (List SpendableM) :=
  cfg.anchorOffset.map (fun anchorOffset =>
    List.insertionSort (fun a b => a.value ≤ b.value)
      (w.txns.flatMap (fun tx =>
        ((notesOf tx).filter (fun n => n.value > 0)).filterMap (fun n =>
          if n.spent.isSome ∨ n.unconfirmedSpent.isSome then none
          else spendableNoteFrom tx.txid n anchorOffset))))

/-- The scan inside add_notes_to_total: take notes while the running
total before the note is still below the target. -/
def takeUntilTarget (target : Nat) : Nat → List SpendableM → List SpendableM
  | _, [] => []
  | running, n :: ns =>
    if running ≥ target then []
    else n :: takeUntilTarget target (running + n.value) ns

/-- LightWallet::add_notes_to_total: loop over the candidate tiers;
for each, select the minimal prefix whose running sum reaches the
target; stop at the first tier that reaches it, else end on the last
tier's selection. -/
def addNotesToTotal (target : Nat) : List (List SpendableM) →
    List SpendableM × Nat
  | [] => ([], 0)
  | candidateSet :: rest =>
    let notes := takeUntilTarget target 0 candidateSet
    let valueSelected := spendableSum notes
    if valueSelected ≥ target then (notes, valueSelected)
    else
      match rest with
      | [] => (notes, valueSelected)
      | _ => addNotesToTotal target rest

/-- The result quadruple of select_notes_and_utxos. -/
structure SelectionM where
  orchardNotes : List SpendableM
  saplingNotes : List SpendableM
  utxos : List UtxoM
  selected : Nat
  deriving DecidableEq, Repr

/-- LightWallet::select_notes_and_utxos, mirroring the source control
flow: gather eligible utxos when permitted and return them alone if
transparent_only or already sufficient; otherwise try sapling first
when prefer_orchard_over_sapling is set, then orchard, then sapling
again otherwise; return empty sets with zero when the target is not
reached. -/
def selectNotesAndUtxos (cfg : ConfigM) (w : WalletM) (targetAmount : Nat)
    (transparentOnly shieldTransparent preferOrchardOverSapling : Bool) :
    SelectionM :=
  let utxos :=
    if transparentOnly || shieldTransparent then
      (getUtxos w).filter (fun u => u.unconfirmedSpent = none && u.spent = none)
    else []
  let transparentValueSelected := ((utxos.map (fun u => u.value))).sum
  if transparentOnly || decide (transparentValueSelected ≥ targetAmount) then
    ⟨[], [], utxos, transparentValueSelected⟩
  else
    let saplingTiers := getAllDomainSpecificNotes TxM.saplingNotes cfg w
    let orchardTiers := getAllDomainSpecificNotes TxM.orchardNotes cfg w
    let firstSapling :=
      if preferOrchardOverSapling then
        addNotesToTotal (targetAmount - transparentValueSelected) saplingTiers
      else ([], 0)
    if preferOrchardOverSapling ∧
        transparentValueSelected + firstSapling.2 ≥ targetAmount then
      ⟨[], firstSapling.1, utxos, transparentValueSelected + firstSapling.2⟩
    else
      let orchardSel := addNotesToTotal
        (targetAmount - transparentValueSelected - firstSapling.2) orchardTiers
      if transparentValueSelected + firstSapling.2 + orchardSel.2 ≥ targetAmount then
        ⟨orchardSel.1, firstSapling.1, utxos,
          transparentValueSelected + firstSapling.2 + orchardSel.2⟩
      else if !preferOrchardOverSapling then
        let secondSapling :=
          addNotesToTotal (targetAmount - transparentValueSelected) saplingTiers
        if transparentValueSelected + secondSapling.2 + orchardSel.2 ≥ targetAmount then
          ⟨orchardSel.1, secondSapling.1, utxos,
            transparentValueSelected + secondSapling.2 + orchardSel.2⟩
        else ⟨[], [], [], 0⟩
      else ⟨[], [], [], 0⟩

/-- The most permissive configured tier's total value: the claims
measure eligibility against the last anchor-offset tier. -/
def lastTierSum (tiers : List (List SpendableM)) : Nat :=
  spendableSum (tiers.getLast?.getD [])

/-! ## Part 4: persistence (LightWallet::read / LightWallet::write and
    the birthday computation) -/

/-- LightWallet::get_first_transaction_block: the lowest block over
all records, or, with no records, the recorded birthday floored at the
sapling activation height. -/
def getFirstTransactionBlock (cfg : ConfigM) (w : WalletM) : Nat :=
  match (w.txns.map (fun tx => tx.block)).min? with
  | some b => b
  | none => max w.birthday cfg.saplingActivationHeight

/-- LightWallet::get_birthday: the recorded birthday capped by the
first transaction block (the first transaction block alone when the
recorded birthday is zero). -/
def getBirthday (cfg : ConfigM) (w : WalletM) : Nat :=
  if w.birthday = 0 then getFirstTransactionBlock cfg w
  else min (getFirstTransactionBlock cfg w) w.birthday

/-- One item of the serialized wallet stream.  The primitive writes of
wallet.rs (write_u64, write_u8, write_string) are items of their own;
each component with its serializer in a module not under src/ (keys,
block list, transaction set, verified-tree snapshot, price) is
modelled from the spec as one atomic item, since the spec fixes only
the field order and that each component round-trips through its own
versioned reader. -/
inductive SItem where
  | u64 (n : Nat)
  | u8 (n : Nat)
  | str (s : Nat)
  | keysItem (k : KeysM)
  | blocksItem (b : List BlockM)
  | txnsItem (t : List TxM)
  | treeItem (t : Option Nat)
  | priceItem (p : Nat)
  deriving DecidableEq, Repr

/-- Consume a u64 item. -/
def readU64 : List SItem → Except String (Nat × List SItem)
  | SItem.u64 n :: rest => Except.ok (n, rest)
  | _ => Except.error "expected u64"

/-- Consume a u8 item. -/
def readU8 : List SItem → Except String (Nat × List SItem)
  | SItem.u8 n :: rest => Except.ok (n, rest)
  | _ => Except.error "expected u8"

/-- Consume a string item (utils::read_string). -/
def readStr : List SItem → Except String (Nat × List SItem)
  | SItem.str s :: rest => Except.ok (s, rest)
  | _ => Except.error "expected string"

/-- Modelled from the spec: Keys::read (keys module not under src/)
consumes the key-store component. -/
def readKeys : List SItem → Except String (KeysM × List SItem)
  | SItem.keysItem k :: rest => Except.ok (k, rest)
  | _ => Except.error "expected keys"

/-- Consume the block-window component (BlockData::read per entry; the
data module is not under src/, modelled from the spec as atomic). -/
def readBlocks : List SItem → Except String (List BlockM × List SItem)
  | SItem.blocksItem b :: rest => Except.ok (b, rest)
  | _ => Except.error "expected blocks"

/-- Modelled from the spec: TransactionMetadataSet::read (transactions
module not under src/) consumes the record-store component. -/
def readTxns : List SItem → Except String (List TxM × List SItem)
  | SItem.txnsItem t :: rest => Except.ok (t, rest)
  | _ => Except.error "expected transactions"

/-- Consume the optional verified-tree snapshot. -/
def readTree : List SItem → Except String (Option Nat × List SItem)
  | SItem.treeItem t :: rest => Except.ok (t, rest)
  | _ => Except.error "expected verified tree"

/-- Modelled from the spec: WalletZecPriceInfo::read (data module not
under src/). -/
def readPrice : List SItem → Except String (Nat × List SItem)
  | SItem.priceItem p :: rest => Except.ok (p, rest)
  | _ => Except.error "expected price"

/-- WalletOptions::write: a leading component version (1), then the
download-memos tag byte. -/
def walletOptionsWrite (o : WalletOptionsM) : List SItem :=
  [SItem.u64 1, SItem.u8 o.downloadMemos.toNat]

/-- WalletOptions::read: skip the component version, then decode the
tag byte, rejecting unknown tags. -/
def walletOptionsRead (s : List SItem) :
    Except String (WalletOptionsM × List SItem) := do
  let (_version, s) ← readU64 s
  let (b, s) ← readU8 s
  match b with
  | 0 => Except.ok (⟨MemoDownloadOptionM.noMemos⟩, s)
  | 1 => Except.ok (⟨MemoDownloadOptionM.walletMemos⟩, s)
  | 2 => Except.ok (⟨MemoDownloadOptionM.allMemos⟩, s)
  | _ => Except.error "Bad download option"

/-- LightWallet::serialized_version. -/
def lightWalletSerializedVersion : Nat := 24

/-- LightWallet::write: refuse while the key store is encrypted and
unlocked; otherwise emit, in order, the current version, the keys, the
block window, the records, the chain tag, the options, the recomputed
birthday, the optional verified tree and the price. -/
def writeWallet (cfg : ConfigM) (w : WalletM) : Except String (List SItem) :=
  if w.keys.encrypted && w.keys.unlocked then
    Except.error "Cannot write while wallet is unlocked while encrypted."
  else
    Except.ok
      ([SItem.u64 lightWalletSerializedVersion,
        SItem.keysItem w.keys,
        SItem.blocksItem w.blocks,
        SItem.txnsItem w.txns,
        SItem.str cfg.chain] ++
       walletOptionsWrite w.walletOptions ++
       [SItem.u64 (getBirthday cfg w),
        SItem.treeItem w.verifiedTree,
        SItem.priceItem w.price])

/-- Modelled from the spec: the pre-version-15 key and record readers
(Keys::read_old, TransactionMetadataSet::read_old) belong to the
historical migration chain, whose modules are not under src/; they are
never reached for a stream written at the current version, which is
the only case the round-trip claim speaks about. -/
def readKeysOld : List SItem → Except String (KeysM × List SItem) :=
  fun _ => Except.error "pre-v15 stream: migration reader not modelled"

/-- Modelled from the spec: see readKeysOld. -/
def readTxnsOld : List SItem → Except String (List TxM × List SItem) :=
  fun _ => Except.error "pre-v15 stream: migration reader not modelled"

/-- LightWallet::read: version gate (reject newer-than-current), the
fields in write order, with the version-conditional migration branches
of the source (old key/record formats, block-order reversal, defaulted
options, skipped tree-verified byte, absent tree and price). -/
def readWallet (cfg : ConfigM) (s : List SItem) : Except String WalletM := do
  let (version, s) ← readU64 s
  if version > lightWalletSerializedVersion then
    Except.error "Don't know how to read wallet version"
  else
    let (keys, s) ← if version ≤ 14 then readKeysOld s else readKeys s
    let (blocks0, s) ← readBlocks s
    let blocks := if version ≤ 14 then blocks0.reverse else blocks0
    let (txns, s) ← if version ≤ 14 then readTxnsOld s else readTxns s
    let (chainName, s) ← readStr s
    if chainName ≠ cfg.chain then
      Except.error "Wallet chain name doesn't match expected"
    else
      let (walletOptions, s) ←
        if version ≤ 23 then
          Except.ok (⟨MemoDownloadOptionM.walletMemos⟩, s)
        else walletOptionsRead s
      let (birthday, s) ← readU64 s
      let s ←
        if version ≤ 22 then
          if version ≤ 12 then Except.ok s
          else do
            let (_treeVerified, s) ← readU8 s
            Except.ok s
        else Except.ok s
      let (verifiedTree, s) ←
        if version ≤ 21 then Except.ok ((none : Option Nat), s)
        else readTree s
      let (price, _s) ←
        if version ≤ 13 then Except.ok ((0 : Nat), s)
        else readPrice s
      Except.ok ⟨birthday, blocks, walletOptions, verifiedTree, price, keys, txns⟩

/-! ## Part 5: key import (LightWallet::add_imported_key and
    adjust_wallet_birthday) -/

/-- LightWallet::adjust_wallet_birthday: lower the wallet birthday to
the imported key's asserted birthday, floored at the sapling
activation height; never raise it. -/
def adjustWalletBirthday (cfg : ConfigM) (walletBirthday newBirthday : Nat) : Nat :=
  if newBirthday < walletBirthday then
    max newBirthday cfg.saplingActivationHeight
  else walletBirthday

/-- Outcome of an import: the error strings of the source collapsed to
tags, or the encoded address of the imported key. -/
inductive ImportOutcome where
  | errEncrypted
  | errDecode
  | errExists
  | address (a : Nat)
  deriving DecidableEq, Repr

/-- LightWallet::update_view_key: when a key matching the new key's
view key already exists, upgrade it in place to a spending key;
otherwise import and append the new key.  Keys are opaque tokens;
setSpend and importer are the closure parameters of the source. -/
def updateViewKey (keyVec : List Nat) (decodedKey : Nat)
    (findViewKey : Nat → Nat → Bool) (setSpend : Nat → Nat → Nat)
    (importer : Nat → Nat) (addrOf : Nat → Nat) : List Nat × Nat :=
  match keyVec.findIdx? (fun k => findViewKey k decodedKey) with
  | some i =>
    let upgraded := setSpend (keyVec.getD i 0) decodedKey
    (keyVec.set i upgraded, addrOf upgraded)
  | none =>
    (keyVec ++ [importer decodedKey], addrOf (importer decodedKey))

/-- LightWallet::add_imported_key (with update_view_key as the
address getter, as add_imported_spend_key wires it): refuse while
encrypted; refuse when decoding fails; refuse when any existing key
matches; only then lower the wallet birthday and add the key. -/
def addImportedKey (cfg : ConfigM) (encrypted : Bool) (walletBirthday : Nat)
    (importBirthday : Nat) (decoded : Except String (Option Nat))
    (keyVec : List Nat) (keyMatcher : Nat → Nat → Bool)
    (findViewKey : Nat → Nat → Bool) (setSpend : Nat → Nat → Nat)
    (importer : Nat → Nat) (addrOf : Nat → Nat) :
    ImportOutcome × List Nat × Nat :=
  if encrypted then (ImportOutcome.errEncrypted, keyVec, walletBirthday)
  else
    match decoded with
    | Except.error _ => (ImportOutcome.errDecode, keyVec, walletBirthday)
    | Except.ok none => (ImportOutcome.errDecode, keyVec, walletBirthday)
    | Except.ok (some decodedKey) =>
      if keyVec.any (fun k => keyMatcher k decodedKey) then
        (ImportOutcome.errExists, keyVec, walletBirthday)
      else
        let birthday2 := adjustWalletBirthday cfg walletBirthday importBirthday
        let (keyVec2, addr) :=
          updateViewKey keyVec decodedKey findViewKey setSpend importer addrOf
        (ImportOutcome.address addr, keyVec2, birthday2)

/-- The anchor height exactly as the spec sentence words it: chain tip
height plus one, minus the configured anchor offset, clamped so it
never precedes the oldest retained block; 0 with no blocks.  This
definition follows the spec text, to be compared against
getAnchorHeight, which follows the source. -/
def anchorHeightSpec (cfg : ConfigM) (w : WalletM) : Nat :=
  match w.blocks.getLast?.map (fun b => u32cast b.height),
      w.blocks.head?.map (fun b => u32cast b.height) with
  | some oldest, some tip =>
    max (tip + 1 - (cfg.anchorOffset.getLast?.getD 0)) oldest
  | _, _ => 0

/-! ## Part 6: the send orchestration
    (LightWallet::send_to_address_internal) -/

/-- A decoded recipient address (address::RecipientAddress): shielded
(sapling), transparent, or unified with optional orchard and sapling
receivers.  Address decoding itself is delegated to an external codec
and is a parameter of the send model. -/
inductive RecipientM where
  | shielded (addr : Nat)
  | transparent (addr : Nat)
  | unified (orchardReceiver : Option Nat) (saplingReceiver : Option Nat)
  deriving DecidableEq, Repr

/-- One operation handed to the external transaction builder, in the
order the source performs them. -/
inductive BuilderEvent where
  | transparentInput (addr value : Nat)
  | saplingSpend (nullifier value : Nat)
  | orchardSpend (nullifier value : Nat)
  | sendChangeToSapling (zaddr : Nat)
  | saplingOutput (addr value : Nat)
  | transparentOutput (addr value : Nat)
  | orchardOutput (addr value : Nat)
  deriving DecidableEq, Repr

/-- DEFAULT_FEE of zcash_primitives (external library): 1000
zatoshis. -/
def defaultFee : Nat := 1000

/-- Update the first list element satisfying the test (the get_mut /
find pattern of the marking code; the source unwraps, which never
fails because the selection originated from the same record store). -/
def updateFirst (p : α → Bool) (f : α → α) : List α → List α
  | [] => []
  | x :: xs => if p x then f x :: xs else x :: updateFirst p f xs

/-- Mark one selected sapling note pending-spent: in the record keyed
by the note's funding txid, set unconfirmed_spent of the first note
with the selected nullifier to (new txid, target height). -/
def markSaplingSpent (newTxid targetHeight : Nat) (txns : List TxM)
    (sel : SpendableM) : List TxM :=
  updateFirst (fun tx => tx.txid = sel.transactionId)
    (fun tx =>
      let notes := updateFirst (fun nd => nd.nullifier = sel.nullifier)
        (fun nd => { nd with unconfirmedSpent := some (newTxid, targetHeight) })
        tx.saplingNotes
      { tx with saplingNotes := notes }) txns

/-- Mark one selected orchard note pending-spent. -/
def markOrchardSpent (newTxid targetHeight : Nat) (txns : List TxM)
    (sel : SpendableM) : List TxM :=
  updateFirst (fun tx => tx.txid = sel.transactionId)
    (fun tx =>
      let notes := updateFirst (fun nd => nd.nullifier = sel.nullifier)
        (fun nd => { nd with unconfirmedSpent := some (newTxid, targetHeight) })
        tx.orchardNotes
      { tx with orchardNotes := notes }) txns

/-- Mark one consumed utxo pending-spent: in the record keyed by the
utxo's txid, set unconfirmed_spent of the first utxo with the same
txid and output index. -/
def markUtxoSpent (newTxid targetHeight : Nat) (txns : List TxM)
    (u : UtxoM) : List TxM :=
  updateFirst (fun tx => tx.txid = u.txid)
    (fun tx =>
      let xs := updateFirst (fun x => u.txid = x.txid ∧ u.outputIndex = x.outputIndex)
        (fun x => { x with unconfirmedSpent := some (newTxid, targetHeight) })
        tx.utxos
      { tx with utxos := xs }) txns

/-- The whole mark-notes-as-spent block of send_to_address_internal:
sapling notes, then orchard notes, then utxos. -/
def markNotesSpent (newTxid targetHeight : Nat) (sel : SelectionM)
    (txns : List TxM) : List TxM :=
  sel.utxos.foldl (markUtxoSpent newTxid targetHeight)
    (sel.orchardNotes.foldl (markOrchardSpent newTxid targetHeight)
      (sel.saplingNotes.foldl (markSaplingSpent newTxid targetHeight) txns))

/-- Decode every recipient through the external codec, failing on the
first undecodable address. -/
def decodeRecipients (decodeAddr : Nat → Option RecipientM) :
    List (Nat × Nat × Option Nat) →
    Except String (List (RecipientM × Nat × Option Nat))
  | [] => Except.ok []
  | (a, v, memo) :: rest =>
    match decodeAddr a with
    | none => Except.error "Invalid recipient address"
    | some ra => do
      let tail ← decodeRecipients decodeAddr rest
      Except.ok ((ra, v, memo) :: tail)

/-- Add all transparent inputs: each consumed utxo needs its signing
key in the taddr-to-sk map (modelled from the spec for the keys
module: the map holds exactly the wallet's transparent keys, keyed by
address); a missing key fails the whole send. -/
def transparentInputEvents (w : WalletM) (utxos : List UtxoM) :
    Except String (List BuilderEvent) :=
  if utxos.all (fun u => w.keys.tkeys.contains u.address) then
    Except.ok (utxos.map (fun u => BuilderEvent.transparentInput u.address u.value))
  else Except.error "Could not find the secretkey for taddr"

/-- Add one output per recipient: shielded to sapling, transparent to
transparent, unified to its orchard receiver when present, else to its
sapling receiver, else fail.  (Memo interpretation is not modelled; it
only turns the optional memo string into bytes.) -/
def outputEvents : List (RecipientM × Nat × Option Nat) →
    Except String (List BuilderEvent)
  | [] => Except.ok []
  | (ra, v, _memo) :: rest => do
    let ev ←
      match ra with
      | RecipientM.shielded a => Except.ok (BuilderEvent.saplingOutput a v)
      | RecipientM.transparent a => Except.ok (BuilderEvent.transparentOutput a v)
      | RecipientM.unified (some oa) _ => Except.ok (BuilderEvent.orchardOutput oa v)
      | RecipientM.unified none (some sa) => Except.ok (BuilderEvent.saplingOutput sa v)
      | RecipientM.unified none none =>
        Except.error "Received UA with no Orchard or Sapling receiver"
    let tail ← outputEvents rest
    Except.ok (ev :: tail)

/-- The outcome of a send: the returned result, the wallet state after
the call, and the ordered list of builder operations performed. -/
structure SendOutcome where
  result : Except String Nat
  wallet : WalletM
  events : List BuilderEvent
  deriving Repr

/-- The anchor step: an orchard anchor comes from a selected orchard
note's witness root, else from the last known verified-tree snapshot;
with neither, the send fails. -/
def orchardAnchorAvailable (w : WalletM) (sel : SelectionM) : Bool :=
  !sel.orchardNotes.isEmpty || w.verifiedTree.isSome

/-- LightWallet::send_to_address_internal.  The external collaborators
are parameters: the recipient codec, the prover-driven build (its
txid on success), and the broadcast (its txid string on success).
Steps in source order: lock check, recipient check, decode, target
computation, selection, insufficient-funds check, anchor, transparent
inputs, shielded spends, the explicit change output when no sapling
note was spent, recipient outputs, build, broadcast, and only then the
pending-spent marking followed by self-ingestion (ingestion via
scan_full_tx lives in a module not under src/ and adds the new record;
it touches no existing note, so it is not modelled further). -/
def sendToAddressInternal (cfg : ConfigM) (w : WalletM)
    (decodeAddr : Nat → Option RecipientM)
    (buildResult : Except String Nat) (broadcastResult : Except String Nat)
    (transparentOnly migrateSaplingToOrchard : Bool)
    (tos : List (Nat × Nat × Option Nat)) : SendOutcome :=
  if !w.keys.unlocked then
    ⟨Except.error "Cannot spend while wallet is locked", w, []⟩
  else if tos.length = 0 then
    ⟨Except.error "Need at least one destination address", w, []⟩
  else
    let totalValue := (tos.map (fun t => t.2.1)).sum
    match decodeRecipients decodeAddr tos with
    | Except.error e => ⟨Except.error e, w, []⟩
    | Except.ok recipients =>
      let targetAmount := totalValue + defaultFee
      match getTargetHeight w with
      | none => ⟨Except.error "No blocks in wallet to target, please sync first", w, []⟩
      | some targetHeight =>
        let sel := selectNotesAndUtxos cfg w targetAmount transparentOnly true
          migrateSaplingToOrchard
        if sel.selected < targetAmount then
          ⟨Except.error "Insufficient verified funds", w, []⟩
        else if !orchardAnchorAvailable w sel then
          ⟨Except.error "No last known verified tree", w, []⟩
        else
          match transparentInputEvents w sel.utxos with
          | Except.error e => ⟨Except.error e, w, []⟩
          | Except.ok tEvents =>
            let sapEvents := sel.saplingNotes.map
              (fun s => BuilderEvent.saplingSpend s.nullifier s.value)
            let orchEvents := sel.orchardNotes.map
              (fun s => BuilderEvent.orchardSpend s.nullifier s.value)
            let changeEvents :=
              if sel.saplingNotes.length = 0 then
                [BuilderEvent.sendChangeToSapling (w.keys.zkeys.headD 0)]
              else []
            match outputEvents recipients with
            | Except.error e =>
              ⟨Except.error e, w, tEvents ++ sapEvents ++ orchEvents ++ changeEvents⟩
            | Except.ok oEvents =>
              let events := tEvents ++ sapEvents ++ orchEvents ++ changeEvents ++ oEvents
              match buildResult with
              | Except.error e => ⟨Except.error e, w, events⟩
              | Except.ok builtTxid =>
                match broadcastResult with
                | Except.error e => ⟨Except.error e, w, events⟩
                | Except.ok broadcastTxid =>
                  let txns2 := markNotesSpent builtTxid (u32cast targetHeight) sel w.txns
                  ⟨Except.ok broadcastTxid, { w with txns := txns2 }, events⟩

/-! ## Concrete instances for witnesses and counterexamples -/

/-- Concrete config for witnesses: mainnet-like, activation height 5,
anchor-offset tiers in the configured (descending) order. -/
def cfg0 : ConfigM := ⟨0, 5, [4, 2, 1, 0]⟩

/-- A record spending 10 by pool, sending 3 outgoing and returning no
change, for instantiating c8_transaction_fee. -/
def feeRecord : TransactionRecordM :=
  { txid := 1, saplingNotes := [], orchardNotes := [], transparentOutputs := [],
    totalSaplingValueSpent := 10, totalOrchardValueSpent := 0,
    totalTransparentValueSpent := 0, outgoingTxData := [3] }

/-- A wallet with retained blocks from height 1 (oldest) up to the
tip at height 10, used against the anchor-height claim. -/
def anchorWallet : WalletM :=
  { birthday := 1, blocks := [⟨10, 0⟩, ⟨9, 0⟩, ⟨1, 0⟩],
    walletOptions := ⟨MemoDownloadOptionM.walletMemos⟩, verifiedTree := none,
    price := 0, keys := ⟨false, true, [], [], []⟩, txns := [] }

/-- A plaintext, unlocked wallet holding one record, for the write
and round-trip witnesses. -/
def rtWallet : WalletM :=
  { birthday := 20, blocks := [⟨30, 11⟩, ⟨29, 12⟩],
    walletOptions := ⟨MemoDownloadOptionM.allMemos⟩, verifiedTree := some 3,
    price := 9, keys := ⟨false, true, [2], [4], [6]⟩,
    txns := [⟨1, 25, [⟨50, 8, none, none, true, 3, 40⟩], [], []⟩] } 

/-- The stream writeWallet produces for rtWallet. -/
def rtStream : List SItem :=
  [SItem.u64 24, SItem.keysItem ⟨false, true, [2], [4], [6]⟩,
   SItem.blocksItem [⟨30, 11⟩, ⟨29, 12⟩],
   SItem.txnsItem [⟨1, 25, [⟨50, 8, none, none, true, 3, 40⟩], [], []⟩],
   SItem.str 0, SItem.u64 1, SItem.u8 2, SItem.u64 20,
   SItem.treeItem (some 3), SItem.priceItem 9]

/-- A config with a single zero anchor-offset tier, so one
confirmation suffices. -/
def cfgZero : ConfigM := ⟨0, 5, [0]⟩

/-- An unspent, spendable sapling note worth 7, confirmed at height 1. -/
def noteBefore : NoteM := ⟨7, 77, none, none, true, 1, 40⟩

/-- The same note marked PendingSpent. -/
def noteAfter : NoteM := ⟨7, 77, none, some (9, 2), true, 1, 40⟩

/-- A one-note wallet before marking. -/
def c3Before : WalletM :=
  { birthday := 1, blocks := [⟨1, 0⟩],
    walletOptions := ⟨MemoDownloadOptionM.walletMemos⟩, verifiedTree := none,
    price := 0, keys := ⟨false, true, [], [4], []⟩,
    txns := [⟨1, 1, [noteBefore], [], []⟩] }

/-- The same wallet after marking its note PendingSpent. -/
def c3After : WalletM :=
  { birthday := 1, blocks := [⟨1, 0⟩],
    walletOptions := ⟨MemoDownloadOptionM.walletMemos⟩, verifiedTree := none,
    price := 0, keys := ⟨false, true, [], [4], []⟩,
    txns := [⟨1, 1, [noteAfter], [], []⟩] }

/-- A wallet holding the same note in the ORCHARD pool, before
marking. -/
def c3BeforeO : WalletM :=
  { birthday := 1, blocks := [⟨1, 0⟩],
    walletOptions := ⟨MemoDownloadOptionM.walletMemos⟩, verifiedTree := none,
    price := 0, keys := ⟨false, true, [], [4], []⟩,
    txns := [⟨1, 1, [], [noteBefore], []⟩] }

/-- The orchard-pool wallet after marking its note PendingSpent. -/
def c3AfterO : WalletM :=
  { birthday := 1, blocks := [⟨1, 0⟩],
    walletOptions := ⟨MemoDownloadOptionM.walletMemos⟩, verifiedTree := none,
    price := 0, keys := ⟨false, true, [], [4], []⟩,
    txns := [⟨1, 1, [], [noteAfter], []⟩] }

/-- A wallet with a single unspent utxo worth 5 and no shielded
notes. -/
def c1Wallet : WalletM :=
  { birthday := 1, blocks := [⟨1, 0⟩],
    walletOptions := ⟨MemoDownloadOptionM.walletMemos⟩, verifiedTree := none,
    price := 0, keys := ⟨false, true, [30], [], []⟩,
    txns := [⟨1, 1, [], [], [⟨1, 0, 5, 30, none, none⟩]⟩] }

/-- A sapling note with the selected nullifier exists and is marked
pending-spent with payload p. -/
def markedSap (txns : List TxM) (s : SpendableM) (p : Nat × Nat) : Prop :=
  ∃ tx ∈ txns, tx.txid = s.transactionId ∧
    ∃ nd ∈ tx.saplingNotes, nd.nullifier = s.nullifier ∧
      nd.unconfirmedSpent = some p

/-- Orchard analog of markedSap. -/
def markedOrch (txns : List TxM) (s : SpendableM) (p : Nat × Nat) : Prop :=
  ∃ tx ∈ txns, tx.txid = s.transactionId ∧
    ∃ nd ∈ tx.orchardNotes, nd.nullifier = s.nullifier ∧
      nd.unconfirmedSpent = some p

/-- A utxo with the consumed utxo's txid and output index exists and
is marked pending-spent with payload p. -/
def markedUtxo (txns : List TxM) (u : UtxoM) (p : Nat × Nat) : Prop :=
  ∃ tx ∈ txns, tx.txid = u.txid ∧
    ∃ x ∈ tx.utxos, x.txid = u.txid ∧ x.outputIndex = u.outputIndex ∧
      x.unconfirmedSpent = some p

/-- The record store contains the selected sapling note. -/
def presSap (txns : List TxM) (s : SpendableM) : Prop :=
  ∃ tx ∈ txns, tx.txid = s.transactionId ∧
    ∃ nd ∈ tx.saplingNotes, nd.nullifier = s.nullifier

/-- The record store contains the selected orchard note. -/
def presOrch (txns : List TxM) (s : SpendableM) : Prop :=
  ∃ tx ∈ txns, tx.txid = s.transactionId ∧
    ∃ nd ∈ tx.orchardNotes, nd.nullifier = s.nullifier

/-- The record store contains the consumed utxo. -/
def presUtxo (txns : List TxM) (u : UtxoM) : Prop :=
  ∃ tx ∈ txns, tx.txid = u.txid ∧
    ∃ x ∈ tx.utxos, x.txid = u.txid ∧ x.outputIndex = u.outputIndex

/-- A junk utxo for instantiating preservation lemmas. -/
def junkUtxo : UtxoM := ⟨0, 0, 0, 0, none, none⟩

/-- Recipient codec for concrete send runs: address token 200 decodes
to a sapling (shielded) address 201. -/
def sendDecode : Nat → Option RecipientM :=
  fun a => if a = 200 then some (RecipientM.shielded 201) else none

/-- A wallet holding one spendable sapling note worth 2000, with a
verified-tree snapshot for the orchard anchor, synced to height 10. -/
def sendWallet : WalletM :=
  { birthday := 1, blocks := [⟨10, 0⟩],
    walletOptions := ⟨MemoDownloadOptionM.walletMemos⟩, verifiedTree := some 5,
    price := 0, keys := ⟨false, true, [], [44], []⟩,
    txns := [⟨1, 1, [⟨2000, 77, none, none, true, 1, 40⟩], [], []⟩] }

/-! ## Theorems -/

/-- C8: get_transaction_fee returns Ok(total value spent by pool minus
value sent to external recipients minus change returned) when that
difference is non-negative, and a MetadataUnderflow error when the
subtraction would underflow. -/
theorem c8_transaction_fee (r : TransactionRecordM) :
    (r.valueOutgoing + r.totalChangeReturned ≤ r.totalValueSpent →
      r.getTransactionFee =
        Except.ok (r.totalValueSpent - r.valueOutgoing - r.totalChangeReturned)) ∧
    (r.totalValueSpent < r.valueOutgoing + r.totalChangeReturned →
      r.getTransactionFee = Except.error ZingoLibErrorM.metadataUnderflow) := by
  unfold TransactionRecordM.getTransactionFee
  constructor
  · intro h
    rw [if_pos (by omega)]
    congr 1
    omega
  · intro h
    rw [if_neg (by omega)]

/-- C8 witness: the fee of feeRecord is 10 - 3 - 0 = 7. -/
theorem c8_transaction_fee_witness :
    feeRecord.valueOutgoing + feeRecord.totalChangeReturned ≤ feeRecord.totalValueSpent ∧
    feeRecord.getTransactionFee = Except.ok 7 :=
  ⟨by decide, (c8_transaction_fee feeRecord).1 (by decide)⟩

/-- Helper: the filterMap over transparent outputs in query_for_ids
yields one id per matching output. -/
theorem length_filterMap_transparent (txid : Nat) (q : OutputQueryM)
    (l : List OutputTR) :
    (l.filterMap (fun n =>
      if n.spendStatusQuery q then
        some (⟨txid, PoolTypeM.transparentPool, u32cast n.outputIndex⟩ : OutputIdM)
      else none)).length
    = (l.filter (fun n => n.spendStatusQuery q)).length := by
  induction l with
  | nil => rfl
  | cons a l ih =>
    by_cases h : a.spendStatusQuery q = true <;>
      simp [List.filterMap_cons, List.filter_cons, h, ih]

/-- Helper: the filterMap over shielded notes in query_for_ids yields
one id per matching note that carries an output index. -/
theorem length_filterMap_shielded (txid : Nat) (q : OutputQueryM)
    (l : List ShNoteTR) :
    (l.filterMap (fun n =>
      if n.spendStatusQuery q then
        n.outputIndex.map (fun i => (⟨txid, PoolTypeM.transparentPool, i⟩ : OutputIdM))
      else none)).length
    = ((l.filter (fun n => n.spendStatusQuery q)).filter
        (fun n => n.outputIndex.isSome)).length := by
  induction l with
  | nil => rfl
  | cons a l ih =>
    by_cases h : a.spendStatusQuery q = true
    · cases hi : a.outputIndex <;>
        simp [List.filterMap_cons, List.filter_cons, h, hi, ih]
    · simp [List.filterMap_cons, List.filter_cons, h, ih]

/-- Helper: ids built from the transparent chunk of query_for_ids
carry the Transparent pool tag. -/
theorem pool_of_mem_chunkT (txid : Nat) (q : OutputQueryM) (l : List OutputTR)
    (oid : OutputIdM)
    (h : oid ∈ l.filterMap (fun n =>
      if n.spendStatusQuery q then
        some (⟨txid, PoolTypeM.transparentPool, u32cast n.outputIndex⟩ : OutputIdM)
      else none)) :
    oid.pool = PoolTypeM.transparentPool := by
  rcases List.mem_filterMap.mp h with ⟨n, _, hn⟩
  by_cases hs : n.spendStatusQuery q = true
  · rw [if_pos hs] at hn
    rw [← Option.some.inj hn]
  · rw [if_neg hs] at hn
    exact absurd hn (by simp)

/-- Helper: ids built from a shielded chunk of query_for_ids carry
the Transparent pool tag. -/
theorem pool_of_mem_chunkS (txid : Nat) (q : OutputQueryM) (l : List ShNoteTR)
    (oid : OutputIdM)
    (h : oid ∈ l.filterMap (fun n =>
      if n.spendStatusQuery q then
        n.outputIndex.map (fun i => (⟨txid, PoolTypeM.transparentPool, i⟩ : OutputIdM))
      else none)) :
    oid.pool = PoolTypeM.transparentPool := by
  rcases List.mem_filterMap.mp h with ⟨n, _, hn⟩
  by_cases hs : n.spendStatusQuery q = true
  · rw [if_pos hs] at hn
    cases hi : n.outputIndex with
    | none => rw [hi] at hn; exact absurd hn (by simp)
    | some i =>
      rw [hi] at hn
      rw [← Option.some.inj hn]
  · rw [if_neg hs] at hn
    exact absurd hn (by simp)

/-- Helper: every id built by query_for_ids carries the Transparent
pool tag. -/
theorem pool_of_mem_queryForIds (r : TransactionRecordM) (q : OutputQueryM)
    (oid : OutputIdM) (h : oid ∈ r.queryForIds q) :
    oid.pool = PoolTypeM.transparentPool := by
  unfold TransactionRecordM.queryForIds at h
  rcases List.mem_append.mp h with h1 | hOrch
  · rcases List.mem_append.mp h1 with hT | hS
    · by_cases ht : q.transparent = true
      · rw [if_pos ht] at hT
        exact pool_of_mem_chunkT r.txid q r.transparentOutputs oid hT
      · rw [if_neg ht] at hT
        exact absurd hT (by simp)
    · by_cases hsap : q.sapling = true
      · rw [if_pos hsap] at hS
        exact pool_of_mem_chunkS r.txid q r.saplingNotes oid hS
      · rw [if_neg hsap] at hS
        exact absurd hS (by simp)
  · by_cases horch : q.orchard = true
    · rw [if_pos horch] at hOrch
      exact pool_of_mem_chunkS r.txid q r.orchardNotes oid hOrch
    · rw [if_neg horch] at hOrch
      exact absurd hOrch (by simp)

/-- C10: query_for_ids returns one identifier per matching
transparent output and per matching shielded note that carries an
output index (matching shielded notes without an output index are
omitted, while query_sum_value still counts their value), and every
returned identifier is tagged with the Transparent pool type. -/
theorem c10_query_for_ids (r : TransactionRecordM) (q : OutputQueryM) :
    (∀ oid ∈ r.queryForIds q, oid.pool = PoolTypeM.transparentPool) ∧
    (r.queryForIds q).length =
      (if q.transparent then
        (r.transparentOutputs.filter (fun n => n.spendStatusQuery q)).length
      else 0) +
      (if q.sapling then
        ((r.saplingNotes.filter (fun n => n.spendStatusQuery q)).filter
          (fun n => n.outputIndex.isSome)).length
      else 0) +
      (if q.orchard then
        ((r.orchardNotes.filter (fun n => n.spendStatusQuery q)).filter
          (fun n => n.outputIndex.isSome)).length
      else 0) ∧
    r.querySumValue q =
      (if q.transparent then
        ((r.transparentOutputs.filter (fun n => n.spendStatusQuery q)).map
          (fun n => n.value)).sum
      else 0) +
      (if q.sapling then
        ((r.saplingNotes.filter (fun n => n.spendStatusQuery q)).map
          (fun n => n.value)).sum
      else 0) +
      (if q.orchard then
        ((r.orchardNotes.filter (fun n => n.spendStatusQuery q)).map
          (fun n => n.value)).sum
      else 0) := by
  refine ⟨pool_of_mem_queryForIds r q, ?_, rfl⟩
  unfold TransactionRecordM.queryForIds
  rw [List.length_append, List.length_append]
  by_cases ht : q.transparent = true <;> by_cases hs : q.sapling = true <;>
    by_cases ho : q.orchard = true <;>
    simp [ht, hs, ho, length_filterMap_transparent, length_filterMap_shielded]

/-- C4 counterexample: with tip 10, oldest block 1 and configured
anchor offset 4 (the last tier of cfg0 being 0 is replaced by a
single-tier config to make the offset explicit), the spec formula
gives max((10+1)-4, 1) = 7 while get_anchor_height returns 6. -/
theorem c4_anchor_height_counterexample :
    getAnchorHeight ⟨0, 5, [4]⟩ anchorWallet = 6 ∧
    anchorHeightSpec ⟨0, 5, [4]⟩ anchorWallet = 7 ∧
    getAnchorHeight ⟨0, 5, [4]⟩ anchorWallet ≠
      anchorHeightSpec ⟨0, 5, [4]⟩ anchorWallet := by
  refine ⟨?_, ?_, ?_⟩ <;> decide

/-- C4 (amended): for a non-empty retained block window,
get_anchor_height returns the spec's clamped anchor ((tip height + 1)
minus the configured offset, clamped to the oldest retained height)
MINUS ONE — one less than the claim states; with no retained blocks it
returns 0.  (The hypothesis 1 ≤ clamped anchor excludes the u32
wrap-around of the trailing decrement, unreachable for real chains.) -/
theorem c4_anchor_height_amended (cfg : ConfigM) (w : WalletM) :
    (w.blocks = [] → getAnchorHeight cfg w = 0) ∧
    (∀ tipB oldB : BlockM, w.blocks.head? = some tipB →
      w.blocks.getLast? = some oldB →
      u32cast oldB.height ≤ u32cast tipB.height →
      1 ≤ anchorHeightSpec cfg w →
      getAnchorHeight cfg w = anchorHeightSpec cfg w - 1) := by
  constructor
  · intro h
    simp [getAnchorHeight, getTargetHeightAndAnchorOffset, h]
  · intro tipB oldB hh hl hsort hge
    unfold anchorHeightSpec at hge ⊢
    unfold getAnchorHeight getTargetHeightAndAnchorOffset
    rw [hh, hl] at hge ⊢
    simp only [Option.map_some'] at hge ⊢
    generalize hT : u32cast tipB.height = T at *
    generalize hO : u32cast oldB.height = O at *
    generalize hF : cfg.anchorOffset.getLast?.getD 0 = F at *
    have hTb : T < 4294967296 := by rw [← hT]; exact Nat.mod_lt _ (by omega)
    omega

/-- C4 witness: instantiating the amended theorem on anchorWallet
with offset tiers [4]. -/
theorem c4_anchor_height_witness :
    getAnchorHeight ⟨0, 5, [4]⟩ anchorWallet =
      anchorHeightSpec ⟨0, 5, [4]⟩ anchorWallet - 1 :=
  (c4_anchor_height_amended ⟨0, 5, [4]⟩ anchorWallet).2 ⟨10, 0⟩ ⟨1, 0⟩
    (by decide) (by decide) (by decide) (by decide)

/-- C9: importing a spending key that is already present (some
existing key matches the decoded key) returns the key-already-exists
error, and both the key list and the wallet birthday are returned
exactly as they were; in particular the birthday adjustment is not
applied on the duplicate path. -/
theorem c9_duplicate_import (cfg : ConfigM) (walletBirthday importBirthday : Nat)
    (decodedKey : Nat) (keyVec : List Nat)
    (keyMatcher findViewKey : Nat → Nat → Bool) (setSpend : Nat → Nat → Nat)
    (importer addrOf : Nat → Nat)
    (hdup : keyVec.any (fun k => keyMatcher k decodedKey) = true) :
    addImportedKey cfg false walletBirthday importBirthday
        (Except.ok (some decodedKey)) keyVec keyMatcher findViewKey setSpend
        importer addrOf
      = (ImportOutcome.errExists, keyVec, walletBirthday) := by
  simp [addImportedKey, hdup]

/-- C9 witness: importing key 7 into the key list [3, 7] (equality as
the matcher) is rejected with the list and birthday untouched. -/
theorem c9_duplicate_import_witness :
    addImportedKey cfg0 false 100 50 (Except.ok (some 7)) [3, 7]
        (fun k d => k = d) (fun k d => k = d) (fun _ d => d) (fun d => d)
        (fun d => d)
      = (ImportOutcome.errExists, [3, 7], 100) :=
  c9_duplicate_import cfg0 100 50 7 [3, 7] (fun k d => k = d)
    (fun k d => k = d) (fun _ d => d) (fun d => d) (fun d => d) (by decide)

/-- C7: LightWallet::write fails (writing nothing) exactly when the
key store is both encrypted and currently unlocked; in every other
lock state it succeeds and its first emitted integer is the current
serialized version, 24. -/
theorem c7_write_gate (cfg : ConfigM) (w : WalletM) :
    (w.keys.encrypted = true → w.keys.unlocked = true →
      writeWallet cfg w =
        Except.error "Cannot write while wallet is unlocked while encrypted.") ∧
    ((w.keys.encrypted && w.keys.unlocked) = false →
      ∃ s, writeWallet cfg w = Except.ok s ∧
        s.head? = some (SItem.u64 lightWalletSerializedVersion)) := by
  constructor
  · intro he hu
    unfold writeWallet
    rw [if_pos (by rw [he, hu]; rfl)]
  · intro hfree
    unfold writeWallet
    rw [if_neg (by rw [hfree]; simp)]
    exact ⟨_, rfl, rfl⟩

/-- C7 witness: writing rtWallet (plaintext, unlocked) succeeds with
leading version 24. -/
theorem c7_write_gate_witness :
    ∃ s, writeWallet cfg0 rtWallet = Except.ok s ∧
      s.head? = some (SItem.u64 lightWalletSerializedVersion) :=
  (c7_write_gate cfg0 rtWallet).2 (by decide)

/-- Helper: rewriting the stored birthday with the recomputed
get_birthday value leaves get_birthday unchanged, so the write
(which persists the recomputed value) preserves the birthday. -/
theorem getBirthday_idem (cfg : ConfigM) (w : WalletM) :
    getBirthday cfg { w with birthday := getBirthday cfg w } =
      getBirthday cfg w := by
  unfold getBirthday getFirstTransactionBlock
  cases hmin : (w.txns.map (fun tx => tx.block)).min? with
  | some b => simp only [hmin]; split_ifs <;> omega
  | none => simp only [hmin]; split_ifs <;> omega

/-- C5: reading back a wallet written at the current serialization
version (no migration step triggered) succeeds and reproduces an
identical key set, identical per-pool balances (transparent, gross and
spendable shielded, for both pools), and an identical birthday. -/
theorem c5_write_read_roundtrip (cfg : ConfigM) (w : WalletM) (s : List SItem)
    (hw : writeWallet cfg w = Except.ok s) :
    ∃ w2, readWallet cfg s = Except.ok w2 ∧
      w2.keys = w.keys ∧
      w2.txns = w.txns ∧
      tbalance w2 none = tbalance w none ∧
      maybeVerifiedSaplingBalance w2 none = maybeVerifiedSaplingBalance w none ∧
      maybeVerifiedOrchardBalance w2 none = maybeVerifiedOrchardBalance w none ∧
      spendableSaplingBalance cfg w2 none = spendableSaplingBalance cfg w none ∧
      spendableOrchardBalance cfg w2 none = spendableOrchardBalance cfg w none ∧
      getBirthday cfg w2 = getBirthday cfg w := by
  have hc : (w.keys.encrypted && w.keys.unlocked) = false := by
    cases hcc : (w.keys.encrypted && w.keys.unlocked) with
    | false => rfl
    | true =>
      unfold writeWallet at hw
      rw [if_pos hcc] at hw
      exact absurd hw (by simp)
  unfold writeWallet at hw
  rw [if_neg (by rw [hc]; simp)] at hw
  have hs := (Except.ok.inj hw).symm
  subst hs
  refine ⟨{ w with birthday := getBirthday cfg w }, ?_, rfl, rfl, rfl, rfl, rfl,
    rfl, rfl, getBirthday_idem cfg w⟩
  cases hwo : w.walletOptions with
  | mk dm =>
    cases dm <;>
      simp [readWallet, walletOptionsRead, readU64, readU8, readStr, readKeys,
        readBlocks, readTxns, readTree, readPrice, walletOptionsWrite, hwo,
        MemoDownloadOptionM.toNat, lightWalletSerializedVersion, bind,
        Except.bind]

/-- C5 witness: the round trip theorem instantiated on rtWallet and
its concrete written stream. -/
theorem c5_write_read_roundtrip_witness :
    ∃ w2, readWallet cfg0 rtStream = Except.ok w2 ∧
      w2.keys = rtWallet.keys ∧
      w2.txns = rtWallet.txns ∧
      tbalance w2 none = tbalance rtWallet none ∧
      maybeVerifiedSaplingBalance w2 none = maybeVerifiedSaplingBalance rtWallet none ∧
      maybeVerifiedOrchardBalance w2 none = maybeVerifiedOrchardBalance rtWallet none ∧
      spendableSaplingBalance cfg0 w2 none = spendableSaplingBalance cfg0 rtWallet none ∧
      spendableOrchardBalance cfg0 w2 none = spendableOrchardBalance cfg0 rtWallet none ∧
      getBirthday cfg0 w2 = getBirthday cfg0 rtWallet :=
  c5_write_read_roundtrip cfg0 rtWallet rtStream (by rfl)

/-- C3 counterexample: marking the single unspent note PendingSpent
drops the gross balance (maybe_verified_sapling_balance) from 7 to 0 —
the gross balance is NOT unchanged as the claim states (the spendable
balance does drop by exactly the note's value). -/
theorem c3_pending_spent_counterexample :
    maybeVerifiedSaplingBalance c3Before none = 7 ∧
    maybeVerifiedSaplingBalance c3After none = 0 ∧
    maybeVerifiedSaplingBalance c3After none ≠ maybeVerifiedSaplingBalance c3Before none ∧
    spendableSaplingBalance cfgZero c3Before none = 7 ∧
    spendableSaplingBalance cfgZero c3After none = 0 := by
  refine ⟨?_, ?_, ?_, ?_, ?_⟩ <;> decide

/-- C3 (amended): marking an unspent shielded note PendingSpent
(unconfirmed_spent set to Some) removes its value from BOTH balances
of its pool, sapling and orchard alike: the gross balance
(maybe_verified_sapling_balance / maybe_verified_orchard_balance)
drops by exactly the note's value (it is not unchanged), and the
spendable balance (spendable_sapling_balance /
spendable_orchard_balance) drops by exactly the note's value whenever
the note was counted as spendable (record at or below the anchor,
spending key held, witness retained). -/
theorem c3_pending_spent_amended (cfg : ConfigM) (w : WalletM)
    (txPre txPost : List TxM) (tx : TxM) (nPre nPost : List NoteM) (n : NoteM)
    (p : Nat × Nat)
    (hw : w.txns = txPre ++ tx :: txPost)
    (hunspent : n.spent = none) (hunconf : n.unconfirmedSpent = none) :
    (∀ w2 : WalletM, tx.saplingNotes = nPre ++ n :: nPost →
      w2 = { w with txns := txPre ++
        { tx with saplingNotes := nPre ++ { n with unconfirmedSpent := some p } :: nPost }
          :: txPost } →
      maybeVerifiedSaplingBalance w none = maybeVerifiedSaplingBalance w2 none + n.value ∧
      (tx.block ≤ getAnchorHeight cfg w → n.hasSpendingKey = true →
        0 < n.witnessesLen →
        spendableSaplingBalance cfg w none =
          spendableSaplingBalance cfg w2 none + n.value)) ∧
    (∀ w2 : WalletM, tx.orchardNotes = nPre ++ n :: nPost →
      w2 = { w with txns := txPre ++
        { tx with orchardNotes := nPre ++ { n with unconfirmedSpent := some p } :: nPost }
          :: txPost } →
      maybeVerifiedOrchardBalance w none = maybeVerifiedOrchardBalance w2 none + n.value ∧
      (tx.block ≤ getAnchorHeight cfg w → n.hasSpendingKey = true →
        0 < n.witnessesLen →
        spendableOrchardBalance cfg w none =
          spendableOrchardBalance cfg w2 none + n.value)) := by
  constructor
  · intro w2 hn hw2
    subst hw2
    constructor
    · unfold maybeVerifiedSaplingBalance shieldedBalance
      rw [hw]
      simp [hn, filterNotesByTargetAddr, noteContribution, hunspent, hunconf]
      omega
    · intro hblock hkey hwit
      unfold spendableSaplingBalance shieldedBalance at *
      rw [hw]
      have hanchor : getAnchorHeight cfg
          { w with txns := txPre ++
            { tx with saplingNotes :=
              nPre ++ { n with unconfirmedSpent := some p } :: nPost }
              :: txPost } = getAnchorHeight cfg w := rfl
      rw [hanchor]
      simp [hn, filterNotesByTargetAddr, noteContribution, hunspent, hunconf,
        hblock, hkey, hwit]
      omega
  · intro w2 hn hw2
    subst hw2
    constructor
    · unfold maybeVerifiedOrchardBalance shieldedBalance
      rw [hw]
      simp [hn, filterNotesByTargetAddr, noteContribution, hunspent, hunconf]
      omega
    · intro hblock hkey hwit
      unfold spendableOrchardBalance shieldedBalance at *
      rw [hw]
      have hanchor : getAnchorHeight cfg
          { w with txns := txPre ++
            { tx with orchardNotes :=
              nPre ++ { n with unconfirmedSpent := some p } :: nPost }
              :: txPost } = getAnchorHeight cfg w := rfl
      rw [hanchor]
      simp [hn, filterNotesByTargetAddr, noteContribution, hunspent, hunconf,
        hblock, hkey, hwit]
      omega

/-- C3 witness: on the one-note wallets, both pools' gross and
spendable balances drop by exactly the note's value 7. -/
theorem c3_pending_spent_amended_witness :
    (maybeVerifiedSaplingBalance c3Before none =
      maybeVerifiedSaplingBalance c3After none + noteBefore.value ∧
     spendableSaplingBalance cfgZero c3Before none =
      spendableSaplingBalance cfgZero c3After none + noteBefore.value) ∧
    (maybeVerifiedOrchardBalance c3BeforeO none =
      maybeVerifiedOrchardBalance c3AfterO none + noteBefore.value ∧
     spendableOrchardBalance cfgZero c3BeforeO none =
      spendableOrchardBalance cfgZero c3AfterO none + noteBefore.value) :=
  ⟨⟨((c3_pending_spent_amended cfgZero c3Before [] [] ⟨1, 1, [noteBefore], [], []⟩
      [] [] noteBefore (9, 2) rfl rfl rfl).1 c3After rfl rfl).1,
    ((c3_pending_spent_amended cfgZero c3Before [] [] ⟨1, 1, [noteBefore], [], []⟩
      [] [] noteBefore (9, 2) rfl rfl rfl).1 c3After rfl rfl).2
      (by decide) (by decide) (by decide)⟩,
   ⟨((c3_pending_spent_amended cfgZero c3BeforeO [] [] ⟨1, 1, [], [noteBefore], []⟩
      [] [] noteBefore (9, 2) rfl rfl rfl).2 c3AfterO rfl rfl).1,
    ((c3_pending_spent_amended cfgZero c3BeforeO [] [] ⟨1, 1, [], [noteBefore], []⟩
      [] [] noteBefore (9, 2) rfl rfl rfl).2 c3AfterO rfl rfl).2
      (by decide) (by decide) (by decide)⟩⟩

/-- Unfolding lemma for spendableSum on cons. -/
theorem spendableSum_cons (a : SpendableM) (l : List SpendableM) :
    spendableSum (a :: l) = a.value + spendableSum l := by
  simp [spendableSum]

/-- The scanned prefix never exceeds the tier's total value. -/
theorem takeUntilTarget_sum_le (target : Nat) (c : List SpendableM) :
    ∀ r : Nat, spendableSum (takeUntilTarget target r c) ≤ spendableSum c := by
  induction c with
  | nil => intro r; simp [takeUntilTarget]
  | cons a l ih =>
    intro r
    unfold takeUntilTarget
    split_ifs with h
    · simp [spendableSum]
    · rw [spendableSum_cons, spendableSum_cons]
      have := ih (r + a.value)
      omega

/-- The scanned prefix either reaches the target (counting the running
start) or is the whole tier. -/
theorem takeUntilTarget_reach_or_all (target : Nat) (c : List SpendableM) :
    ∀ r : Nat, target ≤ r + spendableSum (takeUntilTarget target r c) ∨
      takeUntilTarget target r c = c := by
  induction c with
  | nil =>
    intro r
    right
    rfl
  | cons a l ih =>
    intro r
    unfold takeUntilTarget
    split_ifs with h
    · left
      simpa [spendableSum] using h
    · rcases ih (r + a.value) with h1 | h1
      · left
        rw [spendableSum_cons]
        omega
      · right
        rw [h1]

/-- Tail lemma for lastTierSum. -/
theorem lastTierSum_cons_cons (c d : List SpendableM)
    (cs : List (List SpendableM)) :
    lastTierSum (c :: d :: cs) = lastTierSum (d :: cs) := by
  simp [lastTierSum]

/-- The behavior of add_notes_to_total against the most permissive
tier: under the tier monotonicity hypothesis (every tier's total is at
most the last tier's total, which holds for the descending anchor
offsets of the real configuration), the selected value reaches the
target exactly when the last tier's total does; it never exceeds the
last tier's total; and on shortfall it equals the last tier's total. -/
theorem addNotesToTotal_spec (target : Nat) :
    ∀ tiers : List (List SpendableM),
      (∀ l ∈ tiers, spendableSum l ≤ lastTierSum tiers) →
      (target ≤ (addNotesToTotal target tiers).2 ↔ target ≤ lastTierSum tiers) ∧
      (addNotesToTotal target tiers).2 ≤ lastTierSum tiers ∧
      ((addNotesToTotal target tiers).2 < target →
        (addNotesToTotal target tiers).2 = lastTierSum tiers) := by
  intro tiers
  induction tiers with
  | nil =>
    intro _
    simp [addNotesToTotal, lastTierSum, spendableSum]
  | cons c cs ih =>
    intro hmono
    have hc : spendableSum c ≤ lastTierSum (c :: cs) := hmono c (by simp)
    have hle : spendableSum (takeUntilTarget target 0 c) ≤ spendableSum c :=
      takeUntilTarget_sum_le target c 0
    unfold addNotesToTotal
    dsimp only
    split_ifs with hv
    · refine ⟨⟨fun _ => by omega, fun _ => hv⟩, by omega, fun hlt => by omega⟩
    · rcases takeUntilTarget_reach_or_all target c 0 with h1 | h1
      · omega
      · have hveq : spendableSum (takeUntilTarget target 0 c) = spendableSum c := by
          rw [h1]
        cases cs with
        | nil =>
          dsimp only
          have hlast : lastTierSum [c] = spendableSum c := by
            simp [lastTierSum]
          refine ⟨⟨fun h => by omega, fun h => by omega⟩, by omega, fun _ => by omega⟩
        | cons d ds =>
          dsimp only
          have hlast := lastTierSum_cons_cons c d ds
          have hmono2 : ∀ l ∈ d :: ds, spendableSum l ≤ lastTierSum (d :: ds) := by
            intro l hl
            have := hmono l (by simp [hl])
            omega
          have hih := ih hmono2
          refine ⟨⟨fun h => by omega, fun h => by omega⟩, by omega, fun h => by omega⟩

/-- C1 (amended): with transparent_only false, selection returns a
selected value reaching T exactly when the eligible value under the
flags — the unspent non-pending transparent value when
shield_transparent, plus both pools' most-permissive-tier totals —
reaches T, and otherwise returns empty note and utxo sets with
selected value 0 (tier monotonicity hypotheses as in the real
descending anchor-offset configuration).  With transparent_only true,
however, the claim's otherwise-empty clause fails: selection returns
ALL eligible utxos and their total value even when that total is below
T. -/
theorem c1_selection_amended (cfg : ConfigM) (w : WalletM) (target : Nat)
    (transparentOnly shieldTransparent preferOrchard : Bool)
    (hsap : ∀ l ∈ getAllDomainSpecificNotes TxM.saplingNotes cfg w,
      spendableSum l ≤ lastTierSum (getAllDomainSpecificNotes TxM.saplingNotes cfg w))
    (horch : ∀ l ∈ getAllDomainSpecificNotes TxM.orchardNotes cfg w,
      spendableSum l ≤ lastTierSum (getAllDomainSpecificNotes TxM.orchardNotes cfg w)) :
    (transparentOnly = true →
      selectNotesAndUtxos cfg w target transparentOnly shieldTransparent preferOrchard =
        ⟨[], [],
          (getUtxos w).filter (fun u => u.unconfirmedSpent = none && u.spent = none),
          (((getUtxos w).filter
            (fun u => u.unconfirmedSpent = none && u.spent = none)).map
              (fun u => u.value)).sum⟩) ∧
    (transparentOnly = false →
      (target ≤
          (selectNotesAndUtxos cfg w target transparentOnly shieldTransparent
            preferOrchard).selected ↔
        target ≤
          (if shieldTransparent then
            (((getUtxos w).filter
              (fun u => u.unconfirmedSpent = none && u.spent = none)).map
                (fun u => u.value)).sum
          else 0) +
          lastTierSum (getAllDomainSpecificNotes TxM.saplingNotes cfg w) +
          lastTierSum (getAllDomainSpecificNotes TxM.orchardNotes cfg w)) ∧
      ((selectNotesAndUtxos cfg w target transparentOnly shieldTransparent
          preferOrchard).selected < target →
        selectNotesAndUtxos cfg w target transparentOnly shieldTransparent
          preferOrchard = ⟨[], [], [], 0⟩)) := by
  constructor
  · intro ht
    subst ht
    simp [selectNotesAndUtxos]
  · intro ht
    subst ht
    cases shieldTransparent <;> cases preferOrchard <;>
      simp only [selectNotesAndUtxos, Bool.false_or, Bool.true_and,
        Bool.false_and, Bool.not_true, Bool.not_false, if_true, if_false,
        Bool.false_eq_true, List.filter_nil, List.map_nil, List.sum_nil,
        Nat.sub_zero, Nat.add_zero, Nat.zero_add, decide_eq_true_eq,
        false_and, true_and, if_neg, ite_true, ite_false]
    · obtain ⟨hO1, hO2, hO3⟩ := addNotesToTotal_spec target
        (getAllDomainSpecificNotes TxM.orchardNotes cfg w) horch
      obtain ⟨hS1, hS2, hS3⟩ := addNotesToTotal_spec target
        (getAllDomainSpecificNotes TxM.saplingNotes cfg w) hsap
      split_ifs with h1 h2 h3 <;>
        (try dsimp only) <;>
        refine ⟨by omega, fun hx => ?_⟩ <;>
        first
          | rfl
          | exact absurd hx (by omega)
    · obtain ⟨hS1, hS2, hS3⟩ := addNotesToTotal_spec target
        (getAllDomainSpecificNotes TxM.saplingNotes cfg w) hsap
      obtain ⟨hO1, hO2, hO3⟩ := addNotesToTotal_spec
        (target - (addNotesToTotal target
          (getAllDomainSpecificNotes TxM.saplingNotes cfg w)).2)
        (getAllDomainSpecificNotes TxM.orchardNotes cfg w) horch
      split_ifs with h1 h2 h3 <;>
        (try dsimp only) <;>
        refine ⟨by omega, fun hx => ?_⟩ <;>
        first
          | rfl
          | exact absurd hx (by omega)
    · obtain ⟨hO1, hO2, hO3⟩ := addNotesToTotal_spec
        (target - (((getUtxos w).filter
          (fun u => u.unconfirmedSpent = none && u.spent = none)).map
            (fun u => u.value)).sum)
        (getAllDomainSpecificNotes TxM.orchardNotes cfg w) horch
      obtain ⟨hS1, hS2, hS3⟩ := addNotesToTotal_spec
        (target - (((getUtxos w).filter
          (fun u => u.unconfirmedSpent = none && u.spent = none)).map
            (fun u => u.value)).sum)
        (getAllDomainSpecificNotes TxM.saplingNotes cfg w) hsap
      split_ifs with h1 h2 h3 <;>
        (try dsimp only) <;>
        refine ⟨by omega, fun hx => ?_⟩ <;>
        first
          | rfl
          | exact absurd hx (by omega)
    · obtain ⟨hS1, hS2, hS3⟩ := addNotesToTotal_spec
        (target - (((getUtxos w).filter
          (fun u => u.unconfirmedSpent = none && u.spent = none)).map
            (fun u => u.value)).sum)
        (getAllDomainSpecificNotes TxM.saplingNotes cfg w) hsap
      obtain ⟨hO1, hO2, hO3⟩ := addNotesToTotal_spec
        (target - (((getUtxos w).filter
          (fun u => u.unconfirmedSpent = none && u.spent = none)).map
            (fun u => u.value)).sum -
          (addNotesToTotal (target - (((getUtxos w).filter
            (fun u => u.unconfirmedSpent = none && u.spent = none)).map
              (fun u => u.value)).sum)
            (getAllDomainSpecificNotes TxM.saplingNotes cfg w)).2)
        (getAllDomainSpecificNotes TxM.orchardNotes cfg w) horch
      split_ifs with h1 h2 h3 <;>
        (try dsimp only) <;>
        refine ⟨by omega, fun hx => ?_⟩ <;>
        first
          | rfl
          | exact absurd hx (by omega)

/-- C1 counterexample: requesting 10 with transparent_only against a
wallet whose total eligible value is 5 (one utxo, no notes) returns
the utxo set with selected value 5 — NOT the empty sets with selected
value 0 the claim requires when the eligible total is below the
target. -/
theorem c1_selection_counterexample :
    (selectNotesAndUtxos cfgZero c1Wallet 10 true true false).selected = 5 ∧
    (selectNotesAndUtxos cfgZero c1Wallet 10 true true false).utxos =
      [⟨1, 0, 5, 30, none, none⟩] ∧
    tbalance c1Wallet none = 5 ∧
    lastTierSum (getAllDomainSpecificNotes TxM.saplingNotes cfgZero c1Wallet) = 0 ∧
    lastTierSum (getAllDomainSpecificNotes TxM.orchardNotes cfgZero c1Wallet) = 0 ∧
    ¬(selectNotesAndUtxos cfgZero c1Wallet 10 true true false =
      ⟨[], [], [], 0⟩) := by
  refine ⟨?_, ?_, ?_, ?_, ?_, ?_⟩ <;> decide

/-- C1 witness: the amended iff instantiated on the one-note wallet
at target 5 (eligible value 7 from the single sapling note, so
selection reaches the target). -/
theorem c1_selection_amended_witness :
    5 ≤ (selectNotesAndUtxos cfgZero c3Before 5 false true false).selected ↔
      5 ≤
        (if true then
          (((getUtxos c3Before).filter
            (fun u => u.unconfirmedSpent = none && u.spent = none)).map
              (fun u => u.value)).sum
        else 0) +
        lastTierSum (getAllDomainSpecificNotes TxM.saplingNotes cfgZero c3Before) +
        lastTierSum (getAllDomainSpecificNotes TxM.orchardNotes cfgZero c3Before) :=
  ((c1_selection_amended cfgZero c3Before 5 false true false (by decide)
    (by decide)).2 rfl).1

/-- Every element of updateFirst comes from the original list,
possibly transformed. -/
theorem mem_updateFirst {α : Type} (p : α → Bool) (f : α → α) :
    ∀ l : List α, ∀ z ∈ updateFirst p f l, ∃ y ∈ l, z = y ∨ z = f y := by
  intro l
  induction l with
  | nil => intro z hz; simp [updateFirst] at hz
  | cons y ys ih =>
    intro z hz
    unfold updateFirst at hz
    split_ifs at hz with hp
    · rcases List.mem_cons.mp hz with h | h
      · exact ⟨y, by simp, Or.inr h⟩
      · exact ⟨z, by simp [h], Or.inl rfl⟩
    · rcases List.mem_cons.mp hz with h | h
      · exact ⟨y, by simp, Or.inl h⟩
      · rcases ih z h with ⟨y2, hy2, hor⟩
        exact ⟨y2, by simp [hy2], hor⟩

/-- An existential property closed under the transformer survives
updateFirst. -/
theorem updateFirst_exists_preserved {α : Type} (p : α → Bool) (f : α → α)
    (Q : α → Prop) (hf : ∀ x, Q x → Q (f x)) :
    ∀ l : List α, (∃ x ∈ l, Q x) → ∃ x ∈ updateFirst p f l, Q x := by
  intro l
  induction l with
  | nil => intro h; simp at h
  | cons y ys ih =>
    intro h
    rcases h with ⟨x, hx, hQ⟩
    unfold updateFirst
    split_ifs with hp
    · rcases List.mem_cons.mp hx with h1 | h1
      · exact ⟨f y, by simp, h1 ▸ hf x hQ⟩
      · exact ⟨x, by simp [h1], hQ⟩
    · rcases List.mem_cons.mp hx with h1 | h1
      · exact ⟨y, by simp, h1 ▸ hQ⟩
      · rcases ih ⟨x, h1, hQ⟩ with ⟨x2, hx2, hQ2⟩
        exact ⟨x2, by simp [hx2], hQ2⟩

/-- When every match satisfies Q after transformation, updateFirst of
a list containing a match yields an element satisfying Q. -/
theorem updateFirst_exists_establish {α : Type} (p : α → Bool) (f : α → α)
    (Q : α → Prop) (hsel : ∀ x, p x = true → Q (f x)) :
    ∀ l : List α, (∃ x ∈ l, p x = true) → ∃ x ∈ updateFirst p f l, Q x := by
  intro l
  induction l with
  | nil => intro h; simp at h
  | cons y ys ih =>
    intro h
    rcases h with ⟨x, hx, hpx⟩
    unfold updateFirst
    split_ifs with hp
    · exact ⟨f y, by simp, hsel y hp⟩
    · rcases List.mem_cons.mp hx with h1 | h1
      · exact absurd (h1 ▸ hpx) (by simp [hp])
      · rcases ih ⟨x, h1, hpx⟩ with ⟨x2, hx2, hQ2⟩
        exact ⟨x2, by simp [hx2], hQ2⟩

/-- With a unique match in the list, updateFirst transforms exactly
the matching element, so any property of its image is witnessed. -/
theorem updateFirst_exists_of_unique {α : Type} (p : α → Bool) (f : α → α)
    (Q : α → Prop) :
    ∀ l : List α, l.Pairwise (fun a b => ¬(p a = true ∧ p b = true)) →
      ∀ x ∈ l, p x = true → Q (f x) →
      ∃ y ∈ updateFirst p f l, Q y := by
  intro l
  induction l with
  | nil => intro _ x hx; simp at hx
  | cons y ys ih =>
    intro hpair x hx hpx hQ
    unfold updateFirst
    split_ifs with hp
    · rcases List.mem_cons.mp hx with h1 | h1
      · exact ⟨f y, by simp, h1 ▸ hQ⟩
      · exact absurd ⟨hp, hpx⟩ ((List.pairwise_cons.mp hpair).1 x h1)
    · rcases List.mem_cons.mp hx with h1 | h1
      · exact absurd (h1 ▸ hpx) (by simp [hp])
      · rcases ih (List.pairwise_cons.mp hpair).2 x h1 hpx hQ with ⟨x2, hx2, hQ2⟩
        exact ⟨x2, by simp [hx2], hQ2⟩

/-- Pairwise txid distinctness survives any txid-preserving
updateFirst. -/
theorem pairwise_txid_updateFirst (q : TxM → Bool) (g : TxM → TxM)
    (hg : ∀ tx, (g tx).txid = tx.txid) :
    ∀ txns : List TxM, txns.Pairwise (fun a b => a.txid ≠ b.txid) →
      (updateFirst q g txns).Pairwise (fun a b => a.txid ≠ b.txid) := by
  intro txns
  induction txns with
  | nil => intro h; simp [updateFirst]
  | cons y ys ih =>
    intro hpair
    rcases List.pairwise_cons.mp hpair with ⟨hhead, htail⟩
    unfold updateFirst
    split_ifs with hp
    · exact List.pairwise_cons.mpr ⟨fun z hz => by rw [hg]; exact hhead z hz, htail⟩
    · refine List.pairwise_cons.mpr ⟨fun z hz => ?_, ih htail⟩
      rcases mem_updateFirst q g ys z hz with ⟨w2, hw2, hor⟩
      rcases hor with h | h
      · exact h ▸ hhead w2 hw2
      · rw [h, hg]
        exact hhead w2 hw2

/-- A property of the record store closed under one marking step is
closed under the whole fold. -/
theorem foldl_preserves {β : Type} (op : List TxM → β → List TxM)
    (Q : List TxM → Prop) (hop : ∀ t x, Q t → Q (op t x)) :
    ∀ (xs : List β) (t : List TxM), Q t → Q (xs.foldl op t) := by
  intro xs
  induction xs with
  | nil => intro t h; exact h
  | cons x rest ih => intro t h; exact ih (op t x) (hop t x h)

/-- Marking one sapling spend preserves txid distinctness. -/
theorem pairwise_markSaplingSpent (a b : Nat) (txns : List TxM) (s2 : SpendableM)
    (h : txns.Pairwise (fun t1 t2 => t1.txid ≠ t2.txid)) :
    (markSaplingSpent a b txns s2).Pairwise (fun t1 t2 => t1.txid ≠ t2.txid) := by
  unfold markSaplingSpent
  refine pairwise_txid_updateFirst _ _ ?_ txns h
  intro tx
  rfl

/-- Marking one orchard spend preserves txid distinctness. -/
theorem pairwise_markOrchardSpent (a b : Nat) (txns : List TxM) (s2 : SpendableM)
    (h : txns.Pairwise (fun t1 t2 => t1.txid ≠ t2.txid)) :
    (markOrchardSpent a b txns s2).Pairwise (fun t1 t2 => t1.txid ≠ t2.txid) := by
  unfold markOrchardSpent
  refine pairwise_txid_updateFirst _ _ ?_ txns h
  intro tx
  rfl

/-- Marking one utxo spend preserves txid distinctness. -/
theorem pairwise_markUtxoSpent (a b : Nat) (txns : List TxM) (u : UtxoM)
    (h : txns.Pairwise (fun t1 t2 => t1.txid ≠ t2.txid)) :
    (markUtxoSpent a b txns u).Pairwise (fun t1 t2 => t1.txid ≠ t2.txid) := by
  unfold markUtxoSpent
  refine pairwise_txid_updateFirst _ _ ?_ txns h
  intro tx
  rfl

/-- presSap survives a sapling marking step. -/
theorem presSap_markSaplingSpent (a b : Nat) (txns : List TxM) (s s2 : SpendableM)
    (h : presSap txns s) : presSap (markSaplingSpent a b txns s2) s := by
  unfold presSap markSaplingSpent at *
  refine updateFirst_exists_preserved _ _ _ ?_ txns h
  rintro tx ⟨htxid, nd, hnd, hk⟩
  refine ⟨htxid, ?_⟩
  dsimp only
  refine updateFirst_exists_preserved _ _ (fun nd => nd.nullifier = s.nullifier)
    ?_ tx.saplingNotes ⟨nd, hnd, hk⟩
  intro x hx
  exact hx

/-- presOrch survives a sapling marking step (sapling marks do not
touch orchard notes). -/
theorem presOrch_markSaplingSpent (a b : Nat) (txns : List TxM) (s s2 : SpendableM)
    (h : presOrch txns s) : presOrch (markSaplingSpent a b txns s2) s := by
  unfold presOrch markSaplingSpent at *
  refine updateFirst_exists_preserved _ _ _ ?_ txns h
  intro tx hQ
  exact hQ

/-- presOrch survives an orchard marking step. -/
theorem presOrch_markOrchardSpent (a b : Nat) (txns : List TxM) (s s2 : SpendableM)
    (h : presOrch txns s) : presOrch (markOrchardSpent a b txns s2) s := by
  unfold presOrch markOrchardSpent at *
  refine updateFirst_exists_preserved _ _ _ ?_ txns h
  rintro tx ⟨htxid, nd, hnd, hk⟩
  refine ⟨htxid, ?_⟩
  dsimp only
  refine updateFirst_exists_preserved _ _ (fun nd => nd.nullifier = s.nullifier)
    ?_ tx.orchardNotes ⟨nd, hnd, hk⟩
  intro x hx
  exact hx

/-- presUtxo survives sapling and orchard marking steps. -/
theorem presUtxo_markShielded (a b : Nat) (txns : List TxM) (u : UtxoM)
    (s2 : SpendableM) (h : presUtxo txns u) :
    presUtxo (markSaplingSpent a b txns s2) u ∧
    presUtxo (markOrchardSpent a b txns s2) u := by
  unfold presUtxo markSaplingSpent markOrchardSpent at *
  constructor <;>
    · refine updateFirst_exists_preserved _ _ _ ?_ txns h
      intro tx hQ
      exact hQ

/-- presUtxo survives a utxo marking step. -/
theorem presUtxo_markUtxoSpent (a b : Nat) (txns : List TxM) (u u2 : UtxoM)
    (h : presUtxo txns u) : presUtxo (markUtxoSpent a b txns u2) u := by
  unfold presUtxo markUtxoSpent at *
  refine updateFirst_exists_preserved _ _ _ ?_ txns h
  rintro tx ⟨htxid, x, hx, hk1, hk2⟩
  refine ⟨htxid, ?_⟩
  dsimp only
  refine updateFirst_exists_preserved _ _
    (fun x => x.txid = u.txid ∧ x.outputIndex = u.outputIndex)
    ?_ tx.utxos ⟨x, hx, hk1, hk2⟩
  intro y hy
  exact hy

/-- markedSap survives every later marking step of the block (all
marks carry the same payload). -/
theorem markedSap_preserved (a b : Nat) (txns : List TxM) (s s2 : SpendableM)
    (u2 : UtxoM) (h : markedSap txns s (a, b)) :
    markedSap (markSaplingSpent a b txns s2) s (a, b) ∧
    markedSap (markOrchardSpent a b txns s2) s (a, b) ∧
    markedSap (markUtxoSpent a b txns u2) s (a, b) := by
  unfold markedSap markSaplingSpent markOrchardSpent markUtxoSpent at *
  refine ⟨?_, ?_, ?_⟩
  · refine updateFirst_exists_preserved _ _ _ ?_ txns h
    rintro tx ⟨htxid, nd, hnd, hk, hu⟩
    refine ⟨htxid, ?_⟩
    dsimp only
    refine updateFirst_exists_preserved _ _
      (fun nd => nd.nullifier = s.nullifier ∧ nd.unconfirmedSpent = some (a, b))
      ?_ tx.saplingNotes ⟨nd, hnd, hk, hu⟩
    rintro x ⟨h1, _⟩
    exact ⟨h1, rfl⟩
  · refine updateFirst_exists_preserved _ _ _ ?_ txns h
    intro tx hQ
    exact hQ
  · refine updateFirst_exists_preserved _ _ _ ?_ txns h
    intro tx hQ
    exact hQ

/-- markedOrch survives every later marking step of the block. -/
theorem markedOrch_preserved (a b : Nat) (txns : List TxM) (s s2 : SpendableM)
    (u2 : UtxoM) (h : markedOrch txns s (a, b)) :
    markedOrch (markOrchardSpent a b txns s2) s (a, b) ∧
    markedOrch (markUtxoSpent a b txns u2) s (a, b) := by
  unfold markedOrch markOrchardSpent markUtxoSpent at *
  refine ⟨?_, ?_⟩
  · refine updateFirst_exists_preserved _ _ _ ?_ txns h
    rintro tx ⟨htxid, nd, hnd, hk, hu⟩
    refine ⟨htxid, ?_⟩
    dsimp only
    refine updateFirst_exists_preserved _ _
      (fun nd => nd.nullifier = s.nullifier ∧ nd.unconfirmedSpent = some (a, b))
      ?_ tx.orchardNotes ⟨nd, hnd, hk, hu⟩
    rintro x ⟨h1, _⟩
    exact ⟨h1, rfl⟩
  · refine updateFirst_exists_preserved _ _ _ ?_ txns h
    intro tx hQ
    exact hQ

/-- markedUtxo survives later utxo marking steps. -/
theorem markedUtxo_preserved (a b : Nat) (txns : List TxM) (u u2 : UtxoM)
    (h : markedUtxo txns u (a, b)) :
    markedUtxo (markUtxoSpent a b txns u2) u (a, b) := by
  unfold markedUtxo markUtxoSpent at *
  refine updateFirst_exists_preserved _ _ _ ?_ txns h
  rintro tx ⟨htxid, x, hx, hk1, hk2, hu⟩
  refine ⟨htxid, ?_⟩
  dsimp only
  refine updateFirst_exists_preserved _ _
    (fun x => x.txid = u.txid ∧ x.outputIndex = u.outputIndex ∧
      x.unconfirmedSpent = some (a, b)) ?_ tx.utxos ⟨x, hx, hk1, hk2, hu⟩
  rintro y ⟨h1, h2, _⟩
  exact ⟨h1, h2, rfl⟩

/-- Marking a present sapling note (txids unique) yields a marked
note. -/
theorem markSaplingSpent_establishes (a b : Nat) (txns : List TxM)
    (s : SpendableM)
    (hpair : txns.Pairwise (fun t1 t2 => t1.txid ≠ t2.txid))
    (hpres : presSap txns s) :
    markedSap (markSaplingSpent a b txns s) s (a, b) := by
  rcases hpres with ⟨tx, htx, htxid, nd, hnd, hk⟩
  unfold markedSap markSaplingSpent
  refine updateFirst_exists_of_unique _ _ _ txns ?_ tx htx ?_ ?_
  · refine hpair.imp ?_
    intro t1 t2 hne hcon
    rcases hcon with ⟨h1, h2⟩
    simp only [decide_eq_true_eq] at h1 h2
    exact hne (h1.trans h2.symm)
  · simp [htxid]
  · dsimp only
    refine ⟨htxid, ?_⟩
    refine updateFirst_exists_establish _ _ _ ?_ tx.saplingNotes
      ⟨nd, hnd, by simp [hk]⟩
    intro x hx
    simp only [decide_eq_true_eq] at hx
    exact ⟨hx, rfl⟩

/-- Marking a present orchard note (txids unique) yields a marked
note. -/
theorem markOrchardSpent_establishes (a b : Nat) (txns : List TxM)
    (s : SpendableM)
    (hpair : txns.Pairwise (fun t1 t2 => t1.txid ≠ t2.txid))
    (hpres : presOrch txns s) :
    markedOrch (markOrchardSpent a b txns s) s (a, b) := by
  rcases hpres with ⟨tx, htx, htxid, nd, hnd, hk⟩
  unfold markedOrch markOrchardSpent
  refine updateFirst_exists_of_unique _ _ _ txns ?_ tx htx ?_ ?_
  · refine hpair.imp ?_
    intro t1 t2 hne hcon
    rcases hcon with ⟨h1, h2⟩
    simp only [decide_eq_true_eq] at h1 h2
    exact hne (h1.trans h2.symm)
  · simp [htxid]
  · dsimp only
    refine ⟨htxid, ?_⟩
    refine updateFirst_exists_establish _ _ _ ?_ tx.orchardNotes
      ⟨nd, hnd, by simp [hk]⟩
    intro x hx
    simp only [decide_eq_true_eq] at hx
    exact ⟨hx, rfl⟩

/-- Marking a present utxo (txids unique) yields a marked utxo. -/
theorem markUtxoSpent_establishes (a b : Nat) (txns : List TxM) (u : UtxoM)
    (hpair : txns.Pairwise (fun t1 t2 => t1.txid ≠ t2.txid))
    (hpres : presUtxo txns u) :
    markedUtxo (markUtxoSpent a b txns u) u (a, b) := by
  rcases hpres with ⟨tx, htx, htxid, x, hx, hk1, hk2⟩
  unfold markedUtxo markUtxoSpent
  refine updateFirst_exists_of_unique _ _ _ txns ?_ tx htx ?_ ?_
  · refine hpair.imp ?_
    intro t1 t2 hne hcon
    rcases hcon with ⟨h1, h2⟩
    simp only [decide_eq_true_eq] at h1 h2
    exact hne (h1.trans h2.symm)
  · simp [htxid]
  · dsimp only
    refine ⟨htxid, ?_⟩
    refine updateFirst_exists_establish _ _ _ ?_ tx.utxos
      ⟨x, hx, by simp [hk1, hk2]⟩
    intro y hy
    simp only [decide_eq_true_eq] at hy
    exact ⟨hy.1.symm, hy.2.symm, rfl⟩

/-- Folding the sapling marks over all selected sapling notes marks
each of them. -/
theorem foldl_markSaplingSpent_marks (a b : Nat) :
    ∀ (sels : List SpendableM) (txns : List TxM),
      txns.Pairwise (fun t1 t2 => t1.txid ≠ t2.txid) →
      (∀ s ∈ sels, presSap txns s) →
      ∀ s ∈ sels, markedSap (sels.foldl (markSaplingSpent a b) txns) s (a, b) := by
  intro sels
  induction sels with
  | nil => intro txns _ _ s hs; simp at hs
  | cons s0 rest ih =>
    intro txns hpair hpres s hs
    rw [List.foldl_cons]
    rcases List.mem_cons.mp hs with h | h
    · subst h
      have hm : markedSap (markSaplingSpent a b txns s) s (a, b) :=
        markSaplingSpent_establishes a b txns s hpair (hpres s (by simp))
      exact foldl_preserves _ (fun t => markedSap t s (a, b))
        (fun t x hm2 => (markedSap_preserved a b t s x junkUtxo hm2).1) rest _ hm
    · exact ih (markSaplingSpent a b txns s0)
        (pairwise_markSaplingSpent a b txns s0 hpair)
        (fun s2 hs2 => presSap_markSaplingSpent a b txns s2 s0
          (hpres s2 (by simp [hs2]))) s h

/-- Folding the orchard marks over all selected orchard notes marks
each of them. -/
theorem foldl_markOrchardSpent_marks (a b : Nat) :
    ∀ (sels : List SpendableM) (txns : List TxM),
      txns.Pairwise (fun t1 t2 => t1.txid ≠ t2.txid) →
      (∀ s ∈ sels, presOrch txns s) →
      ∀ s ∈ sels, markedOrch (sels.foldl (markOrchardSpent a b) txns) s (a, b) := by
  intro sels
  induction sels with
  | nil => intro txns _ _ s hs; simp at hs
  | cons s0 rest ih =>
    intro txns hpair hpres s hs
    rw [List.foldl_cons]
    rcases List.mem_cons.mp hs with h | h
    · subst h
      have hm : markedOrch (markOrchardSpent a b txns s) s (a, b) :=
        markOrchardSpent_establishes a b txns s hpair (hpres s (by simp))
      exact foldl_preserves _ (fun t => markedOrch t s (a, b))
        (fun t x hm2 => (markedOrch_preserved a b t s x junkUtxo hm2).1) rest _ hm
    · exact ih (markOrchardSpent a b txns s0)
        (pairwise_markOrchardSpent a b txns s0 hpair)
        (fun s2 hs2 => presOrch_markOrchardSpent a b txns s2 s0
          (hpres s2 (by simp [hs2]))) s h

/-- Folding the utxo marks over all consumed utxos marks each of
them. -/
theorem foldl_markUtxoSpent_marks (a b : Nat) :
    ∀ (us : List UtxoM) (txns : List TxM),
      txns.Pairwise (fun t1 t2 => t1.txid ≠ t2.txid) →
      (∀ u ∈ us, presUtxo txns u) →
      ∀ u ∈ us, markedUtxo (us.foldl (markUtxoSpent a b) txns) u (a, b) := by
  intro us
  induction us with
  | nil => intro txns _ _ u hu; simp at hu
  | cons u0 rest ih =>
    intro txns hpair hpres u hu
    rw [List.foldl_cons]
    rcases List.mem_cons.mp hu with h | h
    · subst h
      have hm : markedUtxo (markUtxoSpent a b txns u) u (a, b) :=
        markUtxoSpent_establishes a b txns u hpair (hpres u (by simp))
      exact foldl_preserves _ (fun t => markedUtxo t u (a, b))
        (fun t x hm2 => markedUtxo_preserved a b t u x hm2) rest _ hm
    · exact ih (markUtxoSpent a b txns u0)
        (pairwise_markUtxoSpent a b txns u0 hpair)
        (fun u2 hu2 => presUtxo_markUtxoSpent a b txns u2 u0
          (hpres u2 (by simp [hu2]))) u h

/-- The selected prefix is drawn from the tier. -/
theorem mem_takeUntilTarget (target : Nat) (c : List SpendableM) :
    ∀ (r : Nat) (x : SpendableM), x ∈ takeUntilTarget target r c → x ∈ c := by
  induction c with
  | nil => intro r x hx; simp [takeUntilTarget] at hx
  | cons a l ih =>
    intro r x hx
    unfold takeUntilTarget at hx
    split_ifs at hx with h
    · simp at hx
    · rcases List.mem_cons.mp hx with h1 | h1
      · simp [h1]
      · simp [ih (r + a.value) x h1]

/-- Every note add_notes_to_total returns belongs to one of the
candidate tiers. -/
theorem mem_addNotesToTotal (target : Nat) :
    ∀ (tiers : List (List SpendableM)) (x : SpendableM),
      x ∈ (addNotesToTotal target tiers).1 → ∃ c ∈ tiers, x ∈ c := by
  intro tiers
  induction tiers with
  | nil => intro x hx; simp [addNotesToTotal] at hx
  | cons c cs ih =>
    intro x hx
    unfold addNotesToTotal at hx
    dsimp only at hx
    split_ifs at hx with h
    · exact ⟨c, by simp, mem_takeUntilTarget target c 0 x hx⟩
    · cases cs with
      | nil =>
        dsimp only at hx
        exact ⟨c, by simp, mem_takeUntilTarget target c 0 x hx⟩
      | cons d ds =>
        dsimp only at hx
        rcases ih x hx with ⟨c2, hc2, hx2⟩
        exact ⟨c2, by simp [hc2], hx2⟩

/-- Every candidate spendable note originates from a wallet record
and carries that record's txid and the note's nullifier. -/
theorem mem_candidates (notesOf : TxM → List NoteM) (cfg : ConfigM) (w : WalletM)
    (c : List SpendableM) (hc : c ∈ getAllDomainSpecificNotes notesOf cfg w)
    (s : SpendableM) (hs : s ∈ c) :
    ∃ tx ∈ w.txns, tx.txid = s.transactionId ∧
      ∃ n ∈ notesOf tx, n.nullifier = s.nullifier := by
  unfold getAllDomainSpecificNotes at hc
  rcases List.mem_map.mp hc with ⟨off, hoff, hceq⟩
  rw [← hceq] at hs
  have hs2 := (List.perm_insertionSort
    (fun a b : SpendableM => a.value ≤ b.value) _).mem_iff.mp hs
  rcases List.mem_flatMap.mp hs2 with ⟨tx, htx, hsx⟩
  rcases List.mem_filterMap.mp hsx with ⟨n, hn, hfn⟩
  have hn2 : n ∈ notesOf tx := (List.mem_filter.mp hn).1
  by_cases hsp : n.spent.isSome ∨ n.unconfirmedSpent.isSome
  · rw [if_pos hsp] at hfn
    exact absurd hfn (by simp)
  · rw [if_neg hsp] at hfn
    unfold spendableNoteFrom at hfn
    split_ifs at hfn with h2
    have heq := Option.some.inj hfn
    refine ⟨tx, htx, ?_, n, hn2, ?_⟩ <;> rw [← heq]

set_option maxHeartbeats 1000000 in
/-- Everything select_notes_and_utxos returns is present in the
wallet's record store: selected sapling and orchard notes name an
existing record and nullifier, and consumed utxos live in an existing
record. -/
theorem selectNotesAndUtxos_mem (cfg : ConfigM) (w : WalletM) (target : Nat)
    (transparentOnly shieldTransparent preferOrchard : Bool) :
    (∀ s ∈ (selectNotesAndUtxos cfg w target transparentOnly shieldTransparent
        preferOrchard).saplingNotes, presSap w.txns s) ∧
    (∀ s ∈ (selectNotesAndUtxos cfg w target transparentOnly shieldTransparent
        preferOrchard).orchardNotes, presOrch w.txns s) ∧
    (∀ u ∈ (selectNotesAndUtxos cfg w target transparentOnly shieldTransparent
        preferOrchard).utxos, ∃ tx ∈ w.txns, u ∈ tx.utxos) := by
  have hsap : ∀ t2 : Nat, ∀ s ∈ (addNotesToTotal t2
      (getAllDomainSpecificNotes TxM.saplingNotes cfg w)).1, presSap w.txns s := by
    intro t2 s hs
    rcases mem_addNotesToTotal t2 _ s hs with ⟨c, hc, hsc⟩
    rcases mem_candidates TxM.saplingNotes cfg w c hc s hsc with
      ⟨tx, htx, h1, n, hn, h2⟩
    exact ⟨tx, htx, h1, n, hn, h2⟩
  have horch : ∀ t2 : Nat, ∀ s ∈ (addNotesToTotal t2
      (getAllDomainSpecificNotes TxM.orchardNotes cfg w)).1, presOrch w.txns s := by
    intro t2 s hs
    rcases mem_addNotesToTotal t2 _ s hs with ⟨c, hc, hsc⟩
    rcases mem_candidates TxM.orchardNotes cfg w c hc s hsc with
      ⟨tx, htx, h1, n, hn, h2⟩
    exact ⟨tx, htx, h1, n, hn, h2⟩
  have hutx : ∀ u ∈ (getUtxos w).filter
      (fun u => u.unconfirmedSpent = none && u.spent = none),
      ∃ tx ∈ w.txns, u ∈ tx.utxos := by
    intro u hu
    have hu1 := (List.mem_filter.mp hu).1
    unfold getUtxos at hu1
    rcases List.mem_flatMap.mp hu1 with ⟨tx, htx, hu2⟩
    exact ⟨tx, htx, (List.mem_filter.mp hu2).1⟩
  unfold selectNotesAndUtxos
  dsimp only
  split_ifs <;>
    refine ⟨fun s hs => ?_, fun s hs => ?_, fun u hu => ?_⟩ <;>
    first
      | exact absurd hs (List.not_mem_nil s)
      | exact absurd hu (List.not_mem_nil u)
      | exact hsap _ s hs
      | exact horch _ s hs
      | exact hutx u hu

/-- C2 (amended): send_to_address_internal marks consumed notes and
utxos PendingSpent only AFTER the broadcast collaborator reports
success — not before handing over the raw bytes.  When broadcast
fails, the wallet is returned unchanged: no note or utxo has been
marked.  When broadcast succeeds, every consumed sapling note, orchard
note and utxo is marked PendingSpent with the built transaction's id
and the target height. -/
theorem c2_marking_amended (cfg : ConfigM) (w : WalletM)
    (decodeAddr : Nat → Option RecipientM)
    (buildResult broadcastResult : Except String Nat)
    (transparentOnly migrate : Bool) (tos : List (Nat × Nat × Option Nat))
    (htxid : w.txns.Pairwise (fun t1 t2 => t1.txid ≠ t2.txid))
    (hutxo : ∀ tx ∈ w.txns, ∀ u ∈ tx.utxos, u.txid = tx.txid) :
    (∀ e, broadcastResult = Except.error e →
      (sendToAddressInternal cfg w decodeAddr buildResult broadcastResult
        transparentOnly migrate tos).wallet = w) ∧
    (∀ builtTxid tid targetHeight,
      buildResult = Except.ok builtTxid →
      broadcastResult = Except.ok tid →
      getTargetHeight w = some targetHeight →
      (sendToAddressInternal cfg w decodeAddr buildResult broadcastResult
        transparentOnly migrate tos).result = Except.ok tid →
      (∀ s ∈ (selectNotesAndUtxos cfg w ((tos.map (fun t => t.2.1)).sum + defaultFee)
          transparentOnly true migrate).saplingNotes,
        markedSap (sendToAddressInternal cfg w decodeAddr buildResult
          broadcastResult transparentOnly migrate tos).wallet.txns s
          (builtTxid, u32cast targetHeight)) ∧
      (∀ s ∈ (selectNotesAndUtxos cfg w ((tos.map (fun t => t.2.1)).sum + defaultFee)
          transparentOnly true migrate).orchardNotes,
        markedOrch (sendToAddressInternal cfg w decodeAddr buildResult
          broadcastResult transparentOnly migrate tos).wallet.txns s
          (builtTxid, u32cast targetHeight)) ∧
      (∀ u ∈ (selectNotesAndUtxos cfg w ((tos.map (fun t => t.2.1)).sum + defaultFee)
          transparentOnly true migrate).utxos,
        markedUtxo (sendToAddressInternal cfg w decodeAddr buildResult
          broadcastResult transparentOnly migrate tos).wallet.txns u
          (builtTxid, u32cast targetHeight))) := by
  constructor
  · intro e hb
    subst hb
    unfold sendToAddressInternal
    dsimp only
    repeat first
      | rfl
      | split
  · intro builtTxid tid targetHeight hbuild hbc hth hres
    subst hbuild
    subst hbc
    have hw2 : (sendToAddressInternal cfg w decodeAddr (Except.ok builtTxid)
        (Except.ok tid) transparentOnly migrate tos).wallet.txns =
        markNotesSpent builtTxid (u32cast targetHeight)
          (selectNotesAndUtxos cfg w ((tos.map (fun t => t.2.1)).sum + defaultFee)
            transparentOnly true migrate) w.txns := by
      unfold sendToAddressInternal at hres ⊢
      rw [hth] at hres ⊢
      revert hres
      dsimp only
      repeat
        first
          | split
          | (intro hres; rfl)
          | (intro hres; exact absurd hres (by simp))
    obtain ⟨hmemS, hmemO, hmemU⟩ := selectNotesAndUtxos_mem cfg w
      ((tos.map (fun t => t.2.1)).sum + defaultFee) transparentOnly true migrate
    rw [hw2]
    unfold markNotesSpent
    set A := builtTxid with hA
    set B := u32cast targetHeight with hB
    set sel := selectNotesAndUtxos cfg w ((tos.map (fun t => t.2.1)).sum + defaultFee)
      transparentOnly true migrate with hselEq
    set t1 := sel.saplingNotes.foldl (markSaplingSpent A B) w.txns with ht1
    set t2 := sel.orchardNotes.foldl (markOrchardSpent A B) t1 with ht2
    have hpair1 : t1.Pairwise (fun a b => a.txid ≠ b.txid) :=
      foldl_preserves (markSaplingSpent A B) _
        (fun t x h => pairwise_markSaplingSpent A B t x h) sel.saplingNotes
        w.txns htxid
    have hpair2 : t2.Pairwise (fun a b => a.txid ≠ b.txid) :=
      foldl_preserves (markOrchardSpent A B) _
        (fun t x h => pairwise_markOrchardSpent A B t x h) sel.orchardNotes
        t1 hpair1
    refine ⟨?_, ?_, ?_⟩
    · intro s hs
      have hm1 : markedSap t1 s (A, B) :=
        foldl_markSaplingSpent_marks A B sel.saplingNotes w.txns htxid
          (fun s2 hs2 => hmemS s2 hs2) s hs
      have hm2 : markedSap t2 s (A, B) :=
        foldl_preserves (markOrchardSpent A B) (fun t => markedSap t s (A, B))
          (fun t x h => (markedSap_preserved A B t s x junkUtxo h).2.1)
          sel.orchardNotes t1 hm1
      exact foldl_preserves (markUtxoSpent A B) (fun t => markedSap t s (A, B))
        (fun t u h => (markedSap_preserved A B t s (⟨0, 0, 0⟩ : SpendableM) u h).2.2)
        sel.utxos t2 hm2
    · intro s hs
      have hp1 : presOrch t1 s :=
        foldl_preserves (markSaplingSpent A B) (fun t => presOrch t s)
          (fun t x h => presOrch_markSaplingSpent A B t s x h)
          sel.saplingNotes w.txns (hmemO s hs)
      have hm2 : markedOrch t2 s (A, B) :=
        foldl_markOrchardSpent_marks A B sel.orchardNotes t1 hpair1
          (fun s2 hs2 => foldl_preserves (markSaplingSpent A B)
            (fun t => presOrch t s2)
            (fun t x h => presOrch_markSaplingSpent A B t s2 x h)
            sel.saplingNotes w.txns (hmemO s2 hs2)) s hs
      exact foldl_preserves (markUtxoSpent A B) (fun t => markedOrch t s (A, B))
        (fun t u h => (markedOrch_preserved A B t s (⟨0, 0, 0⟩ : SpendableM) u h).2)
        sel.utxos t2 hm2
    · intro u hu
      have hp0 : presUtxo w.txns u := by
        rcases hmemU u hu with ⟨tx, htx, hutx2⟩
        exact ⟨tx, htx, (hutxo tx htx u hutx2).symm, u, hutx2, rfl, rfl⟩
      have hp2 : ∀ uu, presUtxo w.txns uu → presUtxo t2 uu := by
        intro uu huu
        have hq1 : presUtxo t1 uu :=
          foldl_preserves (markSaplingSpent A B) (fun t => presUtxo t uu)
            (fun t x h => (presUtxo_markShielded A B t uu x h).1)
            sel.saplingNotes w.txns huu
        exact foldl_preserves (markOrchardSpent A B) (fun t => presUtxo t uu)
          (fun t x h => (presUtxo_markShielded A B t uu x h).2)
          sel.orchardNotes t1 hq1
      exact foldl_markUtxoSpent_marks A B sel.utxos t2 hpair2
        (fun u2 hu2 => hp2 u2 (by
          rcases hmemU u2 hu2 with ⟨tx, htx, hutx2⟩
          exact ⟨tx, htx, (hutxo tx htx u2 hutx2).symm, u2, hutx2, rfl, rfl⟩)) u hu

/-- C2 counterexample: sending 100 (fee 1000) consumes the sapling
note; when the build succeeds but the broadcast collaborator fails,
the wallet is returned exactly as it was — the consumed note's
unconfirmed_spent is still empty, NOT already PendingSpent as the
claim asserts; the identical run with a successful broadcast does
mark it. -/
theorem c2_marking_counterexample :
    (sendToAddressInternal cfgZero sendWallet sendDecode (Except.ok 9)
      (Except.error "node refused") false false [(200, 100, none)]).wallet
      = sendWallet ∧
    ((sendToAddressInternal cfgZero sendWallet sendDecode (Except.ok 9)
      (Except.error "node refused") false false
      [(200, 100, none)]).wallet.txns.map
        (fun tx => tx.saplingNotes.map (fun nd => nd.unconfirmedSpent)))
      = [[none]] ∧
    (sendToAddressInternal cfgZero sendWallet sendDecode (Except.ok 9)
      (Except.error "node refused") false false [(200, 100, none)]).result
      = Except.error "node refused" ∧
    ((sendToAddressInternal cfgZero sendWallet sendDecode (Except.ok 9)
      (Except.ok 3) false false [(200, 100, none)]).wallet.txns.map
        (fun tx => tx.saplingNotes.map (fun nd => nd.unconfirmedSpent)))
      = [[some (9, 11)]] := by
  refine ⟨by decide, by decide, by rfl, by decide⟩

/-- C2 witness: on the concrete successful run, the consumed note
(txid 1, nullifier 77, value 2000) ends up marked PendingSpent with
the built txid 9 at target height 11. -/
theorem c2_marking_amended_witness :
    markedSap (sendToAddressInternal cfgZero sendWallet sendDecode (Except.ok 9)
      (Except.ok 3) false false [(200, 100, none)]).wallet.txns
      ⟨1, 77, 2000⟩ (9, u32cast 11) :=
  ((c2_marking_amended cfgZero sendWallet sendDecode (Except.ok 9) (Except.ok 3)
    false false [(200, 100, none)] (by decide) (by decide)).2 9 3 11 rfl rfl
    (by decide) (by rfl)).1 ⟨1, 77, 2000⟩ (by decide)

/-- A successful transparent-inputs stage emits exactly one
transparent-input operation per consumed utxo. -/
theorem transparentInputEvents_ok_shape (w : WalletM) (us : List UtxoM)
    (evs : List BuilderEvent)
    (h : transparentInputEvents w us = Except.ok evs) :
    evs = us.map (fun u => BuilderEvent.transparentInput u.address u.value) := by
  unfold transparentInputEvents at h
  split_ifs at h with h1
  exact (Except.ok.inj h).symm

/-- The recipient-outputs stage never emits a change operation. -/
theorem outputEvents_no_change :
    ∀ (rs : List (RecipientM × Nat × Option Nat)) (evs : List BuilderEvent),
      outputEvents rs = Except.ok evs →
      ∀ z, BuilderEvent.sendChangeToSapling z ∉ evs := by
  intro rs
  induction rs with
  | nil =>
    intro evs h z
    simp only [outputEvents] at h
    rw [← Except.ok.inj h]
    simp
  | cons r rest ih =>
    intro evs h z hmem
    rcases r with ⟨ra, v, memo⟩
    unfold outputEvents at h
    rcases hrest : outputEvents rest with e | tail
    · cases ra with
      | shielded a => simp [hrest, bind, Except.bind] at h
      | transparent a => simp [hrest, bind, Except.bind] at h
      | unified oa sa =>
        cases oa with
        | some oa2 => simp [hrest, bind, Except.bind] at h
        | none =>
          cases sa with
          | some sa2 => simp [hrest, bind, Except.bind] at h
          | none => simp [bind, Except.bind] at h
    · have hstep : ∀ ev : BuilderEvent,
          (BuilderEvent.sendChangeToSapling z = ev → False) →
          evs = ev :: tail → False := by
        intro ev hne heq
        rw [heq] at hmem
        rcases List.mem_cons.mp hmem with h1 | h1
        · exact hne h1
        · exact ih tail hrest z h1
      cases ra with
      | shielded a =>
        simp only [hrest, bind, Except.bind, Except.ok.injEq] at h
        exact hstep _ (by simp) h.symm
      | transparent a =>
        simp only [hrest, bind, Except.bind, Except.ok.injEq] at h
        exact hstep _ (by simp) h.symm
      | unified oa sa =>
        cases oa with
        | some oa2 =>
          simp only [hrest, bind, Except.bind, Except.ok.injEq] at h
          exact hstep _ (by simp) h.symm
        | none =>
          cases sa with
          | some sa2 =>
            simp only [hrest, bind, Except.bind, Except.ok.injEq] at h
            exact hstep _ (by simp) h.symm
          | none => simp [bind, Except.bind] at h

/-- C6 counterexample: in the concrete successful send from a wallet
funded by one sapling note, no orchard note is selected, so the claim
demands an explicit change output to the default orchard address; yet
the run performs no change operation at all — the source keys the
explicit change on the SAPLING selection being empty
(sapling_notes.len() == 0), not the orchard one, and directs it to the
wallet's default sapling address. -/
theorem c6_change_counterexample :
    (selectNotesAndUtxos cfgZero sendWallet 1100 false true false).orchardNotes
      = [] ∧
    (sendToAddressInternal cfgZero sendWallet sendDecode (Except.ok 9)
      (Except.ok 3) false false [(200, 100, none)]).result = Except.ok 3 ∧
    (sendToAddressInternal cfgZero sendWallet sendDecode (Except.ok 9)
      (Except.ok 3) false false [(200, 100, none)]).events =
      [BuilderEvent.saplingSpend 77 2000, BuilderEvent.saplingOutput 201 100] := by
  refine ⟨by decide, by rfl, by decide⟩

/-- C6 (amended): send_to_address_internal adds an explicit change
output exactly when NO SAPLING note was selected, and it directs that
change to the wallet's default SAPLING address (zkeys[0]); when at
least one sapling note is spent no explicit change output is added.
The orchard pool plays no role in the change decision. -/
theorem c6_change_amended (cfg : ConfigM) (w : WalletM)
    (decodeAddr : Nat → Option RecipientM)
    (transparentOnly migrate : Bool) (tos : List (Nat × Nat × Option Nat))
    (recipients : List (RecipientM × Nat × Option Nat))
    (tEvents oEvents : List BuilderEvent)
    (targetHeight builtTxid tid : Nat)
    (hdec : decodeRecipients decodeAddr tos = Except.ok recipients)
    (hth : getTargetHeight w = some targetHeight)
    (htE : transparentInputEvents w
      (selectNotesAndUtxos cfg w ((tos.map (fun t => t.2.1)).sum + defaultFee)
        transparentOnly true migrate).utxos = Except.ok tEvents)
    (hoE : outputEvents recipients = Except.ok oEvents)
    (hres : (sendToAddressInternal cfg w decodeAddr (Except.ok builtTxid)
      (Except.ok tid) transparentOnly migrate tos).result = Except.ok tid) :
    ∀ z, BuilderEvent.sendChangeToSapling z ∈
      (sendToAddressInternal cfg w decodeAddr (Except.ok builtTxid)
        (Except.ok tid) transparentOnly migrate tos).events ↔
      ((selectNotesAndUtxos cfg w ((tos.map (fun t => t.2.1)).sum + defaultFee)
        transparentOnly true migrate).saplingNotes = [] ∧
       z = w.keys.zkeys.headD 0) := by
  intro z
  unfold sendToAddressInternal at hres ⊢
  dsimp only at hres ⊢
  rw [hdec, hth] at hres ⊢
  dsimp only at hres ⊢
  rw [htE, hoE] at hres ⊢
  dsimp only at hres ⊢
  revert hres
  split
  · intro hres; exact absurd hres (by simp)
  split
  · intro hres; exact absurd hres (by simp)
  split
  · intro hres; exact absurd hres (by simp)
  split
  · intro hres; exact absurd hres (by simp)
  dsimp only
  split
  · intro hres
    rename_i hc
    have hnt : BuilderEvent.sendChangeToSapling z ∉ tEvents := by
      rw [transparentInputEvents_ok_shape w _ tEvents htE]
      simp
    have hno := outputEvents_no_change recipients oEvents hoE z
    have hempty := List.length_eq_zero.mp hc
    simp [hnt, hno, hempty]
  · intro hres
    rename_i hc
    have hnt : BuilderEvent.sendChangeToSapling z ∉ tEvents := by
      rw [transparentInputEvents_ok_shape w _ tEvents htE]
      simp
    have hno := outputEvents_no_change recipients oEvents hoE z
    have hne : (selectNotesAndUtxos cfg w
        ((tos.map (fun t => t.2.1)).sum + defaultFee)
        transparentOnly true migrate).saplingNotes ≠ [] := by
      intro he
      rw [he] at hc
      exact hc rfl
    simp [hnt, hno, hne]

/-- C6 witness: on the concrete successful run from sendWallet, a
change operation to the wallet's default sapling address 44 was
performed exactly when the sapling selection came up empty (here it
did not, so no change operation happened). -/
theorem c6_change_amended_witness :
    BuilderEvent.sendChangeToSapling 44 ∈
      (sendToAddressInternal cfgZero sendWallet sendDecode (Except.ok 9)
        (Except.ok 3) false false [(200, 100, none)]).events ↔
      ((selectNotesAndUtxos cfgZero sendWallet 1100 false true
          false).saplingNotes = [] ∧
       44 = sendWallet.keys.zkeys.headD 0) :=
  c6_change_amended cfgZero sendWallet sendDecode false false
    [(200, 100, none)] [(RecipientM.shielded 201, 100, none)] []
    [BuilderEvent.saplingOutput 201 100] 11 9 3 (by rfl) (by rfl) (by rfl)
    (by rfl) (by rfl) 44
